import Mathlib

/-!
Verification of the multi-agent prediction/debate system.

Shallow embedding of the Python sources:
- `src/utils/api_adapter.py` (provider registry, unified LLM adapter, web-search executor)
- `src/models.py` (pydantic data model)
- `src/services/prediction_service.py` (forecast orchestration)
- `src/services/debate_service.py` (debate orchestration engine)
- `src/agents/specialized_agents.py` (JSON fence stripping, forecast parsing)

Python strings are modelled as Lean `String`s (equivalently their `List Char`
of code points: Python `len`/slicing are code-point based, as are `String.length`
and `.data` here).  Network calls are modelled by explicit outcome oracles
passed as arguments; exceptions are modelled by explicit outcome constructors.
Floats are modelled as rationals (`ℚ`); all float operations used by the code
(range comparisons against 0.0/1.0) are exact, so no rounding is lost.
-/

/-! ## Data model (src/models.py) -/

/-- `PredictionOutcome(str, Enum)` with members YES and NO. -/
inductive PredictionOutcome where
  | YES
  | NO
deriving DecidableEq

/-- `KeyFact(BaseModel)`: claim and source strings. -/
structure KeyFact where
  claim : String
  source : String
deriving DecidableEq

/-- `PredictionOutput(BaseModel)`: the Forecast.  `probability` is a float
constrained by `Field(ge=0.0, le=1.0)`; modelled as `ℚ`. -/
structure PredictionOutput where
  event_id : String
  prediction : PredictionOutcome
  probability : ℚ
  key_facts : List KeyFact
  rationale : String
deriving DecidableEq

/-- JSON values (the result of Python `json.loads`).  Numbers are modelled as
rationals; null/bool do not occur in the payloads the claims are about. -/
inductive Json where
  | str : String → Json
  | num : ℚ → Json
  | arr : List Json → Json
  | obj : List (String × Json) → Json

/-- `d.get(key)` / `d[key]` on a parsed JSON object (first binding wins; the
objects produced by `json.loads` have unique keys). -/
def jLookup (j : Json) (key : String) : Option Json :=
  match j with
  | .obj fields => fields.lookup key
  | _ => none

/-! ## Provider Capability Registry (src/utils/api_adapter.py, API_CONFIGS and
detect_api_type) -/

/-- One entry of `API_CONFIGS`. -/
structure ApiConfig where
  name : String
  pfx : String
  base_url : Option String
  default_model : String
  has_function_calling : Bool

/-- `API_CONFIGS`, in the source's (Python 3.7+ insertion-preserving) order. -/
def API_CONFIGS : List ApiConfig :=
  [⟨"groq", "gsk_", some "https://api.groq.com/openai/v1", "llama-3.3-70b-versatile", false⟩,
   ⟨"xai", "xai-", some "https://api.x.ai/v1", "grok-2-latest", true⟩,
   ⟨"gemini", "AIza", none, "gemini-2.0-flash", true⟩,
   ⟨"openai", "sk-", none, "gpt-4o", true⟩]

/-- Python `s.startswith(p)`: code-point level prefix test. -/
def pyStartswith (s p : String) : Bool :=
  p.data.isPrefixOf s.data

/-- `detect_api_type(api_key)`: returns `(type, model, has_function_calling)`,
where the first two components are `None` for invalid (too short) keys. -/
def detect_api_type (api_key : String) : Option String × Option String × Bool :=
  if api_key = "" || api_key.length < 10 then (none, none, false)
  else
    match API_CONFIGS.find? (fun c => pyStartswith api_key c.pfx) with
    | some c => (some c.name, some c.default_model, c.has_function_calling)
    | none => (some "groq", some "llama-3.3-70b-versatile", false)

/-! ## Research Tool Executor (src/utils/api_adapter.py, execute_web_search) -/

/-- One entry of the parsed Tavily `results` array; `title`/`content` may be
absent (`r.get` with a default). -/
structure SearchResult where
  title : Option String
  content : Option String
deriving DecidableEq

/-- Outcome of the `requests.post` transport: an exception anywhere inside the
`try` block, or a parsed response with an HTTP status and results array. -/
inductive HttpOutcome where
  | exn
  | resp (status : Nat) (results : List SearchResult)
deriving DecidableEq

/-- The sentinel returned when no search is possible. -/
def searchSentinel (query : String) : String :=
  "[Web search requested for: '" ++ query ++ "' - No search API configured]"

/-- One formatted line: `f"- \x7br.get('title', 'N/A')\x7d: \x7br.get('content', '')[:200]\x7d"`. -/
def formatResult (r : SearchResult) : String :=
  "- " ++ r.title.getD "N/A" ++ ": " ++ String.mk ((r.content.getD "").data.take 200)

/-- Python `a or b` for optional strings (empty string is falsy). -/
def orTruthy (a b : Option String) : Option String :=
  match a with
  | some s => if s = "" then b else some s
  | none => b

/-- Python truthiness of the joined key, `if tavily_key:`: `None` and the
empty string are falsy. -/
def truthyKey : Option String → Bool
  | none => false
  | some s => !(s == "")

/-- `execute_web_search(query, tavily_key)`; `env_key` is `os.getenv("TAVILY_API_KEY")`,
`http` the transport outcome. -/
def execute_web_search (query : String) (tavily_key env_key : Option String)
    (http : HttpOutcome) : String :=
  if truthyKey (orTruthy tavily_key env_key) then
    match http with
    | .exn => searchSentinel query
    | .resp status results =>
      if status = 200 then
        "Search results for '" ++ query ++ "':\n" ++
          String.intercalate "\n" ((results.take 3).map formatResult)
      else searchSentinel query
  else searchSentinel query

/-! ## Unified LLM Adapter surface (src/utils/api_adapter.py, UnifiedLLM) -/

/-- Outcome of the provider call inside a `try` block: a returned value, or an
exception raised anywhere in the block. -/
inductive CallOutcome (α : Type) where
  | ok (val : α)
  | exn
deriving DecidableEq

/-- `UnifiedLLM.is_valid`: `bool(self.api_key and len(self.api_key) > 20 and self.api_type)`. -/
def UnifiedLLM.is_valid (api_key : String) : Bool :=
  api_key != "" && decide (api_key.length > 20) && (detect_api_type api_key).1.isSome

/-- `UnifiedLLM.generate`: validity gate, then provider transport inside
`try/except` returning the trimmed text, `None` on exception. -/
def UnifiedLLM.generate (api_key : String) (transport : CallOutcome String) : Option String :=
  if !UnifiedLLM.is_valid api_key then none
  else
    match transport with
    | .ok text => some text.trim
    | .exn => none

/-- `UnifiedLLM.generate_json`: same interface shape as `generate` (all four
provider branches return the trimmed response text inside the `try`). -/
def UnifiedLLM.generate_json (api_key : String) (transport : CallOutcome String) : Option String :=
  if !UnifiedLLM.is_valid api_key then none
  else
    match transport with
    | .ok text => some text.trim
    | .exn => none

/-- `UnifiedLLM.generate_with_tools`: validity gate, then dispatch to a
provider-specific helper inside `try/except`; the helper itself returns
`Optional[str]` (`inner`), and any exception yields `None`. -/
def UnifiedLLM.generate_with_tools (api_key : String)
    (inner : CallOutcome (Option String)) : Option String :=
  if !UnifiedLLM.is_valid api_key then none
  else
    match inner with
    | .ok r => r
    | .exn => none

/-! ## Native function calling (src/utils/api_adapter.py,
_generate_openai_with_function_calling, lines 175-236) -/

/-- One entry of `assistant_message.tool_calls`; `args` is the result of
`json.loads(tool_call.function.arguments)`. -/
structure ToolCall where
  id : String
  fname : String
  args : Json

/-- The assistant message of the first upstream call: its (possibly empty)
tool-call list and optional text content. -/
structure AssistantMsg where
  tool_calls : List ToolCall
  content : Option String

/-- Chat messages as assembled by the adapter. -/
inductive Msg where
  | system (content : String)
  | user (content : String)
  | assistant (m : AssistantMsg)
  | tool (tool_call_id : String) (content : String)

/-- `function_args.get("query", "")` (the scenario arguments are an object with
a string `query`; other shapes default to `""`). -/
def queryArg (args : Json) : String :=
  match jLookup args "query" with
  | some (.str s) => s
  | _ => ""

/-- The string appended for one tool call: the executor result for
`web_search`, the `Unknown function` notice otherwise. -/
def toolResult (executor : String → String) (tc : ToolCall) : String :=
  if tc.fname = "web_search" then executor (queryArg tc.args)
  else "Unknown function: " ++ tc.fname

/-- The `for tool_call in assistant_message.tool_calls` loop: appends one tool
message per call and counts executor (`execute_web_search`) invocations. -/
def appendToolResults (executor : String → String) (msgs : List Msg) :
    List ToolCall → List Msg × Nat
  | [] => (msgs, 0)
  | tc :: rest =>
    let execCount : Nat := if tc.fname = "web_search" then 1 else 0
    let r := appendToolResults executor (msgs ++ [Msg.tool tc.id (toolResult executor tc)]) rest
    (r.1, execCount + r.2)

/-- Observable outcome of one tool-augmented generation: the returned text,
the number of upstream `chat.completions.create` calls, the number of executor
calls, and (when a second call happened) the message list it was given. -/
structure FcResult where
  result : Option String
  upstream_calls : Nat
  executor_calls : Nat
  second_messages : Option (List Msg)
deriving Inhabited

/-- `_generate_openai_with_function_calling(prompt, system_prompt)`.
`first` is the assistant message of the first upstream call; `second` gives
the content of the second upstream call as a function of the messages it is
sent (that call carries no `tools` parameter, so it can request no further
tools).  The executor is `execute_web_search`, abstracted as a function. -/
def generate_openai_with_function_calling (first : AssistantMsg)
    (second : List Msg → String) (executor : String → String)
    (prompt system_prompt : String) : FcResult :=
  let messages :=
    (if system_prompt ≠ "" then [Msg.system system_prompt] else []) ++ [Msg.user prompt]
  if !first.tool_calls.isEmpty then
    let messages1 := messages ++ [Msg.assistant first]
    let r := appendToolResults executor messages1 first.tool_calls
    { result := some (second r.1).trim, upstream_calls := 2,
      executor_calls := r.2, second_messages := some r.1 }
  else
    { result :=
        match first.content with
        | some s => if s = "" then none else some s.trim
        | none => none,
      upstream_calls := 1, executor_calls := 0, second_messages := none }

/-! ## Forecast validation and prediction orchestration
(src/models.py PredictionOutput; src/services/prediction_service.py run_battle;
src/agents/specialized_agents.py generate_prediction) -/

/-- Pydantic validation of the `prediction` field: the `PredictionOutcome`
string enum accepts exactly the member values "YES" and "NO". -/
def parseOutcome (j : Json) : Option PredictionOutcome :=
  match j with
  | .str "YES" => some .YES
  | .str "NO" => some .NO
  | _ => none

/-- Pydantic validation of `probability: float = Field(ge=0.0, le=1.0)`:
a number within the closed unit interval, never clamped. -/
def parseProbability (j : Json) : Option ℚ :=
  match j with
  | .num q => if 0 ≤ q ∧ q ≤ 1 then some q else none
  | _ => none

/-- The string carried by a JSON string value (pydantic `str` fields accept
exactly strings). -/
def jsonStr : Json → Option String
  | .str s => some s
  | _ => none

/-- Pydantic validation of one `KeyFact`. -/
def toKeyFact (j : Json) : Option KeyFact :=
  ((jLookup j "claim").bind jsonStr).bind fun c =>
  ((jLookup j "source").bind jsonStr).bind fun s =>
  some ⟨c, s⟩

/-- Pydantic validation of the `key_facts: List[KeyFact]` field: a JSON array
each of whose elements is a valid KeyFact; no minimum length. -/
def keyFactsOf : Json → Option (List KeyFact)
  | .arr xs => xs.mapM toKeyFact
  | _ => none

/-- `PredictionOutput(**data)`: pydantic construction/validation.  Every field
is required; `key_facts` must be a list of valid `KeyFact`s but may be empty
(`List[KeyFact]` carries no minimum length); extra keys are ignored. -/
def PredictionOutput.model_validate (j : Json) : Option PredictionOutput :=
  ((jLookup j "event_id").bind jsonStr).bind fun ev =>
  ((jLookup j "prediction").bind parseOutcome).bind fun pr =>
  ((jLookup j "probability").bind parseProbability).bind fun prob =>
  ((jLookup j "key_facts").bind keyFactsOf).bind fun kfs =>
  ((jLookup j "rationale").bind jsonStr).bind fun rat =>
  some { event_id := ev, prediction := pr, probability := prob,
         key_facts := kfs, rationale := rat }

/-- `agent.generate_prediction(event)` as observed by `run_battle`: the agent's
model call and `json.loads(clean_json(...))` either raise (`none`) or produce a
JSON value, which pydantic then validates; any validation error also raises
(`none`). -/
def generate_prediction (modelOutput : Option Json) : Option PredictionOutput :=
  modelOutput.bind PredictionOutput.model_validate

/-- One entry of the `agent_predictions` list `run_battle` hands to the debate:
`\x7b"agent_name", "prediction" (the enum value string), "probability",
"rationale", "key_facts"\x7d`. -/
structure AgentPrediction where
  agent_name : String
  prediction : String
  probability : ℚ
  rationale : String
  key_facts : List KeyFact
deriving DecidableEq

/-- `pred.prediction.value`. -/
def outcomeValue : PredictionOutcome → String
  | .YES => "YES"
  | .NO => "NO"

/-- `PredictionService.run_battle`, prediction loop (lines 80-107): each active
agent is given by its name and the JSON its model call produced (`none` when
the call or JSON parse raised).  An agent whose `generate_prediction` raises is
reported and excluded; successful forecasts are accumulated, in order, into
`(predictions, agent_predictions)`. -/
def run_battle (agents : List (String × Option Json)) :
    List PredictionOutput × List AgentPrediction :=
  match agents with
  | [] => ([], [])
  | (name, out) :: rest =>
    let r := run_battle rest
    match generate_prediction out with
    | some pred =>
      (pred :: r.1,
       { agent_name := name, prediction := outcomeValue pred.prediction,
         probability := pred.probability, rationale := pred.rationale,
         key_facts := pred.key_facts } :: r.2)
    | none => (r.1, r.2)

/-! ## Debate Orchestration Engine (src/services/debate_service.py) -/

/-- Outcome of one `self._llm.generate(prompt)` attempt inside the retry loop:
either a returned `Optional[str]`, or an exception whose text does / does not
match `"429" in str(e) or "rate" in str(e).lower()`. -/
inductive GenOutcome where
  | ret (r : Option String)
  | exn (is_rate : Bool)
deriving DecidableEq

/-- `result and len(result) > 20` (None and empty string are falsy). -/
def truthyLong (r : Option String) : Bool :=
  match r with
  | some s => s != "" && decide (s.length > 20)
  | none => false

/-- Observable behaviour of `_generate_response`: the returned text (or None),
the sequence of `time.sleep` durations performed, and the number of
`self._llm.generate` calls issued. -/
structure TryResult where
  result : Option String
  waits : List Nat
  calls : Nat
deriving DecidableEq

/-- `for attempt in range(max_attempts)` of `_generate_response`
(lines 44-58), with `remaining + 1` iterations left and the current
`attempt` index and `wait_time` carried through.  On a rate-limit exception
the loop sleeps `wait_time` and adds 5 (only when further attempts remain);
on any other exception it sleeps 2; a short or empty result retries with no
sleep. -/
def genTry (attempts : Nat → GenOutcome) : Nat → Nat → Nat → TryResult
  | _, _, 0 => { result := none, waits := [], calls := 0 }
  | attempt, wait_time, remaining + 1 =>
    match attempts attempt with
    | .ret r =>
      if truthyLong r then { result := r, waits := [], calls := 1 }
      else
        let t := genTry attempts (attempt + 1) wait_time remaining
        { result := t.result, waits := t.waits, calls := t.calls + 1 }
    | .exn is_rate =>
      if is_rate then
        if 0 < remaining then
          let t := genTry attempts (attempt + 1) (wait_time + 5) remaining
          { result := t.result, waits := wait_time :: t.waits, calls := t.calls + 1 }
        else
          let t := genTry attempts (attempt + 1) wait_time remaining
          { result := t.result, waits := t.waits, calls := t.calls + 1 }
      else
        let t := genTry attempts (attempt + 1) wait_time remaining
        { result := t.result, waits := 2 :: t.waits, calls := t.calls + 1 }

/-- `DebateService._generate_response` (lines 37-59): `None` without any call
when no LLM is configured, else the 3-attempt loop starting with
`wait_time = 5`. -/
def generate_response (llm : Bool) (attempts : Nat → GenOutcome) : TryResult :=
  if llm then genTry attempts 0 5 3
  else { result := none, waits := [], calls := 0 }

/-- `all_yes or all_no` (run_debate lines 91-93; identical code in
voice_debate_service.py lines 91-93): the derived ConsensusState. -/
def consensus_mode (predictions : List AgentPrediction) : Bool :=
  predictions.all (fun p => p.prediction == "YES") ||
  predictions.all (fun p => p.prediction == "NO")

/-- One recorded transcript entry `\x7b"speaker": ..., "text": ...\x7d`. -/
structure Turn where
  speaker : String
  text : String
deriving DecidableEq

/-- The dictionary `run_debate` returns on success. -/
structure DebateResult where
  event_id : String
  predictions : List AgentPrediction
  transcript : List Turn
deriving DecidableEq

/-- The inner speaker loop shared by the discussion rounds and the closing
statements: for each speaker in order, `_generate_response` is consulted
(`oracle turn_idx` gives that turn's per-attempt outcomes); a `None` response
records nothing and the loop proceeds to the next speaker.  Returns the turns
appended and the total number of `generate` calls. -/
def runTurns (llm : Bool) (oracle : Nat → Nat → GenOutcome) (turn_idx : Nat) :
    List AgentPrediction → List Turn × Nat
  | [] => ([], 0)
  | p :: rest =>
    let t := generate_response llm (oracle turn_idx)
    let r := runTurns llm oracle (turn_idx + 1) rest
    match t.result with
    | some text => ({ speaker := p.agent_name, text := text } :: r.1, t.calls + r.2)
    | none => (r.1, t.calls + r.2)

/-- The full speaking order of one debate: every prediction speaks once per
discussion round (`for round_num in range(1, rounds + 1): for ... in
predictions`), then once more for the closing statements. -/
def debateSpeakers (predictions : List AgentPrediction) (rounds : Nat) :
    List AgentPrediction :=
  (List.replicate rounds predictions).flatten ++ predictions

/-- `DebateService.run_debate(event_id, predictions, rounds)`: fewer than 2
predictions fails immediately (the empty-dict return, modelled as `none`)
with no generation call; otherwise the discussion rounds and closing
statements run and the transcript dictionary is returned.  The second
component counts all `generate` calls issued. -/
def run_debate (llm : Bool) (oracle : Nat → Nat → GenOutcome) (event_id : String)
    (predictions : List AgentPrediction) (rounds : Nat) : Option DebateResult × Nat :=
  if predictions.length < 2 then (none, 0)
  else
    let r := runTurns llm oracle 0 (debateSpeakers predictions rounds)
    (some { event_id := event_id, predictions := predictions, transcript := r.1 }, r.2)

/-- The transcript an observer extracts from a `run_debate` return (the
failure dictionary `\x7b\x7d` has no turns). -/
def transcriptOf (r : Option DebateResult × Nat) : List Turn :=
  match r.1 with
  | some res => res.transcript
  | none => []

/-! ## Markdown fence stripping and the Forecast payload codec
(src/agents/specialized_agents.py clean_json; src/models.py PredictionOutput).

Python string operations (`split`, `strip`, `in`) are modelled at the
code-point level on `List Char`. -/

/-- Python `sep in s` for a non-empty separator: some suffix of `s` starts
with `sep`. -/
def hasSub (sep : List Char) : List Char → Bool
  | [] => sep.isPrefixOf []
  | c :: cs => sep.isPrefixOf (c :: cs) || hasSub sep cs

/-- Python `s.split(sep)` for a non-empty `sep`, scanning left to right and
consuming non-overlapping occurrences.  `fuel` bounds the recursion; it is
instantiated with the input length, which every step strictly decreases, so
the out-of-fuel clause is unreachable from `pySplit`. -/
def pySplitAux (sep : List Char) : Nat → List Char → List Char → List (List Char)
  | 0, l, acc => [acc.reverse ++ l]
  | _ + 1, [], acc => [acc.reverse]
  | fuel + 1, c :: cs, acc =>
    if sep.isPrefixOf (c :: cs) then
      acc.reverse :: pySplitAux sep fuel (cs.drop (sep.length - 1)) []
    else
      pySplitAux sep fuel cs (c :: acc)

/-- Python `s.split(sep)` (`sep` non-empty). -/
def pySplit (s sep : List Char) : List (List Char) :=
  pySplitAux sep s.length s []

/-- Python `s.strip()`: drop leading and trailing whitespace. -/
def pyStrip (s : List Char) : List Char :=
  ((s.dropWhile Char.isWhitespace).reverse.dropWhile Char.isWhitespace).reverse

/-- Shorthand for the code points of a string literal. -/
def lit (s : String) : List Char := s.data

/-- `clean_json(content)` (specialized_agents.py lines 16-22): strip Markdown
code fences.  If `"```json"` occurs, take what lies between it and the next
"```" and strip it; otherwise, if "```" occurs, take what lies between the
first two fences and strip it; otherwise return the content unchanged. -/
def clean_json (content : String) : String :=
  let cs := content.data
  if hasSub (lit "```json") cs then
    String.mk (pyStrip ((pySplit ((pySplit cs (lit "```json")).getD 1 []) (lit "```")).getD 0 []))
  else if hasSub (lit "```") cs then
    String.mk (pyStrip ((pySplit ((pySplit cs (lit "```")).getD 1 []) (lit "```")).getD 0 []))
  else content

/-- A Forecast payload in the shape the model is asked to emit: the five
fields of `PredictionOutput`, with the float probability as the decimal
`probM / 10 ^ probE` (a float literal always carries at least one fractional
digit).  Modelled from the spec ("a JSON-clean Forecast payload"): no code
under src/ serializes a Forecast, so the payload and its `json.dumps`
rendering below follow the spec's round-trip wording and the standard
`json.dumps` output format. -/
structure ForecastPayload where
  event_id : List Char
  prediction : List Char
  probM : Nat
  probE : Nat
  key_facts : List (List Char × List Char)
  rationale : List Char
deriving DecidableEq

/-- The decimal digit characters. -/
def digitChar : Nat → Char
  | 0 => '0'
  | 1 => '1'
  | 2 => '2'
  | 3 => '3'
  | 4 => '4'
  | 5 => '5'
  | 6 => '6'
  | 7 => '7'
  | 8 => '8'
  | _ => '9'

/-- Big-endian decimal digit characters of a natural number (empty for 0). -/
def natChars (n : Nat) : List Char :=
  (Nat.digits 10 n).reverse.map digitChar

/-- The decimal rendering of `m / 10 ^ e` with exactly `e` fractional digits
(zero-padded on the left so the integer part is never empty), as `json.dumps`
prints a float. -/
def renderProb (m e : Nat) : List Char :=
  let ds := natChars m
  let padded := List.replicate (e + 1 - ds.length) '0' ++ ds
  padded.take (padded.length - e) ++ '.' :: padded.drop (padded.length - e)

/-- A JSON string literal (JSON-clean payload strings need no escapes). -/
def renderStr (s : List Char) : List Char := '"' :: (s ++ ['"'])

/-- `json.dumps` of one key-fact object. -/
def renderKeyFact (kf : List Char × List Char) : List Char :=
  lit "\x7b\"claim\": " ++ renderStr kf.1 ++ lit ", \"source\": " ++ renderStr kf.2 ++ lit "\x7d"

/-- `json.dumps` of the key-fact array's elements, comma-joined. -/
def renderKeyFacts : List (List Char × List Char) → List Char
  | [] => []
  | [kf] => renderKeyFact kf
  | kf :: rest => renderKeyFact kf ++ lit ", " ++ renderKeyFacts rest

/-- `json.dumps` of the full Forecast payload (default separators, insertion
order of the model's fields). -/
def renderPayload (pl : ForecastPayload) : List Char :=
  lit "\x7b\"event_id\": " ++ renderStr pl.event_id ++
    lit ", \"prediction\": " ++ renderStr pl.prediction ++
    lit ", \"probability\": " ++ renderProb pl.probM pl.probE ++
    lit ", \"key_facts\": [" ++ renderKeyFacts pl.key_facts ++
    lit "], \"rationale\": " ++ renderStr pl.rationale ++ lit "\x7d"

/-- The serialized Forecast payload as a string. -/
def json_dumps_forecast (pl : ForecastPayload) : String :=
  String.mk (renderPayload pl)

/-- Consume an expected literal. -/
def expectLit (l cs : List Char) : Option (List Char) :=
  if l.isPrefixOf cs then some (cs.drop l.length) else none

/-- Parse a JSON string literal (no escapes: JSON-clean payloads contain
none, and `json.dumps` introduces none for them). -/
def parseJStr (cs : List Char) : Option (List Char × List Char) :=
  if cs.take 1 = ['"'] then
    let rest := cs.drop 1
    let r2 := rest.dropWhile (fun x => x != '"')
    if r2.take 1 = ['"'] then some (rest.takeWhile (fun x => x != '"'), r2.drop 1)
    else none
  else none

/-- Numeric value of a decimal digit character. -/
def digitVal (c : Char) : Nat := c.toNat - 48

/-- Value of a big-endian decimal digit string. -/
def parseDigits (cs : List Char) : Nat :=
  cs.foldl (fun a c => a * 10 + digitVal c) 0

/-- Parse a non-negative float literal `ddd.ddd` into mantissa and fractional
digit count. -/
def parseProbChars (cs : List Char) : Option ((Nat × Nat) × List Char) :=
  let ip := cs.takeWhile Char.isDigit
  let r1 := cs.dropWhile Char.isDigit
  if ip.isEmpty then none
  else if r1.take 1 = ['.'] then
    let r2 := r1.drop 1
    let fp := r2.takeWhile Char.isDigit
    let r3 := r2.dropWhile Char.isDigit
    if fp.isEmpty then none
    else some ((parseDigits (ip ++ fp), fp.length), r3)
  else none

/-- Parse one key-fact object. -/
def parseKeyFactChars (cs : List Char) : Option ((List Char × List Char) × List Char) :=
  (expectLit (lit "\x7b\"claim\": ") cs).bind fun r1 =>
  (parseJStr r1).bind fun cr =>
  (expectLit (lit ", \"source\": ") cr.2).bind fun r3 =>
  (parseJStr r3).bind fun sr =>
  (expectLit (lit "\x7d") sr.2).bind fun r5 =>
  some ((cr.1, sr.1), r5)

/-- Parse a non-empty comma-separated key-fact sequence (`fuel` bounds the
recursion; each element consumes at least one character). -/
def parseKeyFactsChars : Nat → List Char → Option (List (List Char × List Char) × List Char)
  | 0, _ => none
  | fuel + 1, cs =>
    (parseKeyFactChars cs).bind fun r =>
    if r.2.take 2 = [',', ' '] then
      (parseKeyFactsChars fuel (r.2.drop 2)).bind fun rr => some (r.1 :: rr.1, rr.2)
    else some ([r.1], r.2)

/-- Parse the bracketed key-fact array (possibly empty). -/
def parseKeyFactList (cs : List Char) : Option (List (List Char × List Char) × List Char) :=
  (expectLit (lit "[") cs).bind fun r1 =>
  if r1.take 1 = [']'] then some ([], r1.drop 1)
  else
    (parseKeyFactsChars r1.length r1).bind fun rr =>
    (expectLit (lit "]") rr.2).bind fun r3 =>
    some (rr.1, r3)

/-- Parse the full serialized Forecast payload. -/
def parsePayloadChars (cs : List Char) : Option (ForecastPayload × List Char) :=
  (expectLit (lit "\x7b\"event_id\": ") cs).bind fun r1 =>
  (parseJStr r1).bind fun ev =>
  (expectLit (lit ", \"prediction\": ") ev.2).bind fun r2 =>
  (parseJStr r2).bind fun pr =>
  (expectLit (lit ", \"probability\": ") pr.2).bind fun r3 =>
  (parseProbChars r3).bind fun prob =>
  (expectLit (lit ", \"key_facts\": ") prob.2).bind fun r4 =>
  (parseKeyFactList r4).bind fun kfs =>
  (expectLit (lit ", \"rationale\": ") kfs.2).bind fun r5 =>
  (parseJStr r5).bind fun rat =>
  (expectLit (lit "\x7d") rat.2).bind fun r6 =>
  some (⟨ev.1, pr.1, prob.1.1, prob.1.2, kfs.1, rat.1⟩, r6)

/-- The JSON value a successful `json.loads` of a serialized Forecast payload
produces. -/
def payloadJson (pl : ForecastPayload) : Json :=
  Json.obj
    [("event_id", .str (String.mk pl.event_id)),
     ("prediction", .str (String.mk pl.prediction)),
     ("probability", .num ((pl.probM : ℚ) / (10 : ℚ) ^ pl.probE)),
     ("key_facts", .arr (pl.key_facts.map fun kf =>
        Json.obj [("claim", .str (String.mk kf.1)), ("source", .str (String.mk kf.2))])),
     ("rationale", .str (String.mk pl.rationale))]

/-- `json.loads` on a serialized Forecast payload (modelled for the payload
schema): the whole input must be consumed. -/
def json_loads_forecast (s : String) : Option Json :=
  (parsePayloadChars s.data).bind fun r => if r.2 = [] then some (payloadJson r.1) else none

/-- The agents' parse path on a cleaned response:
`PredictionOutput(**json.loads(...))`. -/
def parse_forecast (s : String) : Option PredictionOutput :=
  (json_loads_forecast s).bind PredictionOutput.model_validate

/-- A payload wrapped in a ```json code fence. -/
def fenceWrapJson (s : String) : String := "```json\n" ++ s ++ "\n```"

/-- A payload wrapped in bare ``` code fences. -/
def fenceWrapBare (s : String) : String := "```\n" ++ s ++ "\n```"

/-- JSON-clean character: printable ASCII, not a quote, backslash or
backtick, so `json.dumps` emits it verbatim and fences survive. -/
def cleanChar (c : Char) : Bool :=
  decide (32 ≤ c.toNat) && decide (c.toNat < 127) && c != '"' && c != '\\' && c != '`'

/-- A JSON-clean Forecast payload: clean strings, a YES/NO outcome, and a
probability `probM / 10 ^ probE` in the unit interval with at least one
fractional digit (as any float literal has). -/
def jsonCleanPayload (pl : ForecastPayload) : Bool :=
  pl.event_id.all cleanChar && pl.prediction.all cleanChar && pl.rationale.all cleanChar &&
  pl.key_facts.all (fun kf => kf.1.all cleanChar && kf.2.all cleanChar) &&
  (pl.prediction = lit "YES" || pl.prediction = lit "NO") &&
  decide (1 ≤ pl.probE) && decide (pl.probM ≤ 10 ^ pl.probE)

/-- The PredictionOutput a JSON-clean payload denotes, field for field. -/
def ForecastPayload.toOutput (pl : ForecastPayload) : PredictionOutput :=
  { event_id := String.mk pl.event_id,
    prediction := if pl.prediction = lit "YES" then PredictionOutcome.YES
      else PredictionOutcome.NO,
    probability := (pl.probM : ℚ) / (10 : ℚ) ^ pl.probE,
    key_facts := pl.key_facts.map (fun kf => ⟨String.mk kf.1, String.mk kf.2⟩),
    rationale := String.mk pl.rationale }

/-! ## Concrete instances used by witnesses and counterexamples -/

/-- A locked prediction dictionary with the given name and outcome. -/
def mkPred (name outcome : String) : AgentPrediction :=
  { agent_name := name, prediction := outcome, probability := 1 / 2,
    rationale := "r", key_facts := [] }

/-- A syntactically valid Forecast payload whose `key_facts` list is empty. -/
def emptyClaimsPayload : Json :=
  .obj [("event_id", .str "E1"), ("prediction", .str "YES"),
        ("probability", .num (mkRat 13 20)), ("key_facts", .arr []),
        ("rationale", .str "r")]

/-- A concrete web-search tool call. -/
def tcW : ToolCall :=
  { id := "call_1", fname := "web_search", args := .obj [("query", .str "berlin weather")] }

/-- A first-pass assistant message requesting exactly one tool call. -/
def firstW : AssistantMsg := { tool_calls := [tcW], content := none }

/-- A second-pass model behaviour returning fixed text. -/
def secondW : List Msg → String := fun _ => " The weather is mild. "

/-- A concrete executor. -/
def executorW : String → String := fun q => "results for " ++ q

/-- A concrete JSON-clean Forecast payload (probability 0.65). -/
def plW : ForecastPayload :=
  { event_id := lit "E1", prediction := lit "YES", probM := 65, probE := 2,
    key_facts := [(lit "GDP grew", lit "news")], rationale := lit "solid growth" }

/-! ## Helper lemmas -/

theorem genTry_calls_le (attempts : Nat → GenOutcome) :
    ∀ r a w, (genTry attempts a w r).calls ≤ r := by
  intro r
  induction r with
  | zero => intro a w; simp [genTry]
  | succ n ih =>
    intro a w
    simp only [genTry]
    cases attempts a with
    | ret rr =>
      by_cases h : truthyLong rr = true
      · simp [h]
      · simp only [h, Bool.false_eq_true, if_false]
        exact Nat.succ_le_succ (ih _ _)
    | exn is_rate =>
      cases is_rate with
      | true =>
        by_cases h : 0 < n
        · simp only [h, if_true, if_pos]
          exact Nat.succ_le_succ (ih _ _)
        · simp only [h, if_false]
          exact Nat.succ_le_succ (ih _ _)
      | false =>
        simp only [Bool.false_eq_true, if_false]
        exact Nat.succ_le_succ (ih _ _)

theorem genTry_result_long (attempts : Nat → GenOutcome) :
    ∀ r a w s, (genTry attempts a w r).result = some s → 20 < s.length := by
  intro r
  induction r with
  | zero => intro a w s h; simp [genTry] at h
  | succ n ih =>
    intro a w s h
    simp only [genTry] at h
    split at h
    · split at h
      · rename_i r heq ht
        have hr : r = some s := h
        subst hr
        simp only [truthyLong, Bool.and_eq_true, decide_eq_true_eq] at ht
        exact ht.2
      · exact ih _ _ _ h
    · split at h
      · split at h
        · exact ih _ _ _ h
        · exact ih _ _ _ h
      · exact ih _ _ _ h

theorem truthyLong_of_long {s : String} (h : 20 < s.length) : truthyLong (some s) = true := by
  have hne : s ≠ "" := by
    intro he
    subst he
    simp at h
  simp [truthyLong, h, hne]

theorem generate_response_all_success (s : String) (h : 20 < s.length)
    (attempts : Nat → GenOutcome) (h0 : attempts 0 = .ret (some s)) :
    generate_response true attempts = { result := some s, waits := [], calls := 1 } := by
  simp [generate_response, genTry, h0, truthyLong_of_long h]

theorem genTry_all_other_fail (attempts : Nat → GenOutcome) :
    ∀ r a w, (∀ i, attempts i = .exn false) →
      genTry attempts a w r = { result := none, waits := List.replicate r 2, calls := r } := by
  intro r
  induction r with
  | zero => intro a w _; simp [genTry]
  | succ n ih =>
    intro a w hall
    simp only [genTry, hall a, Bool.false_eq_true, if_false]
    rw [ih (a + 1) w hall]
    simp [List.replicate_succ]

theorem runTurns_all_success (oracle : Nat → Nat → GenOutcome) (s : String)
    (hs : 20 < s.length) :
    ∀ (l : List AgentPrediction) (k : Nat),
      (∀ i, k ≤ i → ∀ a, oracle i a = .ret (some s)) →
      (runTurns true oracle k l).1 = l.map (fun p => { speaker := p.agent_name, text := s }) ∧
      (runTurns true oracle k l).2 = l.length := by
  intro l
  induction l with
  | nil => intro k _; simp [runTurns]
  | cons p rest ih =>
    intro k hk
    have hres : generate_response true (oracle k) =
        { result := some s, waits := [], calls := 1 } :=
      generate_response_all_success s hs _ (hk k (Nat.le_refl k) 0)
    have ihr := ih (k + 1) (fun i hi a => hk i (Nat.le_of_succ_le hi) a)
    simp only [runTurns, hres]
    simp [ihr.1, ihr.2, Nat.add_comm]

theorem runTurns_text_long (llm : Bool) (oracle : Nat → Nat → GenOutcome) :
    ∀ (l : List AgentPrediction) (k : Nat) (t : Turn),
      t ∈ (runTurns llm oracle k l).1 → 20 < t.text.length := by
  intro l
  induction l with
  | nil => intro k t ht; simp [runTurns] at ht
  | cons p rest ih =>
    intro k t ht
    simp only [runTurns] at ht
    split at ht
    · rename_i text heq
      rcases List.mem_cons.mp ht with h1 | h1
      · subst h1
        cases hllm : llm with
        | false =>
          rw [hllm] at heq
          simp [generate_response] at heq
        | true =>
          rw [hllm] at heq
          simp only [generate_response, if_pos rfl] at heq
          exact genTry_result_long _ _ _ _ _ heq
      · exact ih (k + 1) t h1
    · exact ih (k + 1) t ht

/-- C6: running the debate orchestration with fewer than 2 forecasts (in
particular exactly 1) fails immediately with the InsufficientParticipants
outcome (the error report and empty-dict return), records no turns, issues no
generation calls, and produces an empty Transcript. -/
theorem run_debate_insufficient_participants (llm : Bool)
    (oracle : Nat → Nat → GenOutcome) (event_id : String)
    (predictions : List AgentPrediction) (rounds : Nat)
    (h : predictions.length < 2) :
    run_debate llm oracle event_id predictions rounds = (none, 0) ∧
    transcriptOf (run_debate llm oracle event_id predictions rounds) = [] := by
  refine ⟨?_, ?_⟩ <;> simp [run_debate, transcriptOf, h]

theorem run_debate_insufficient_participants_witness :
    [mkPred "Gemini" "YES"].length < 2 ∧
    (run_debate true (fun _ _ => GenOutcome.ret none) "E1" [mkPred "Gemini" "YES"] 3 =
        (none, 0) ∧
      transcriptOf
        (run_debate true (fun _ _ => GenOutcome.ret none) "E1" [mkPred "Gemini" "YES"] 3) =
        []) :=
  ⟨by decide,
   run_debate_insufficient_participants true (fun _ _ => GenOutcome.ret none) "E1"
     [mkPred "Gemini" "YES"] 3 (by decide)⟩

/-- C7: every turn recorded in the debate Transcript has text strictly longer
than the 20-character minimum; shorter or empty responses are discarded and
never appended, across all discussion rounds and closing statements. -/
theorem transcript_quality_gate (llm : Bool) (oracle : Nat → Nat → GenOutcome)
    (event_id : String) (predictions : List AgentPrediction) (rounds : Nat) :
    ∀ t ∈ transcriptOf (run_debate llm oracle event_id predictions rounds),
      20 < t.text.length := by
  intro t ht
  by_cases h2 : predictions.length < 2
  · simp [run_debate, transcriptOf, h2] at ht
  · simp only [run_debate, transcriptOf, if_neg h2] at ht
    exact runTurns_text_long llm oracle _ 0 t ht

theorem transcript_quality_gate_witness :
    ({ speaker := "A", text := "aaaaaaaaaaaaaaaaaaaaa" } : Turn) ∈
      transcriptOf (run_debate true (fun _ _ => GenOutcome.ret (some "aaaaaaaaaaaaaaaaaaaaa"))
        "E1" [mkPred "A" "YES", mkPred "B" "NO"] 1) ∧
    20 < ({ speaker := "A", text := "aaaaaaaaaaaaaaaaaaaaa" } : Turn).text.length :=
  ⟨by decide,
   transcript_quality_gate true (fun _ _ => GenOutcome.ret (some "aaaaaaaaaaaaaaaaaaaaa"))
     "E1" [mkPred "A" "YES", mkPred "B" "NO"] 1 _ (by decide)⟩

/-- C2 counterexample: the claim says a non-rate-limited failure is followed by
a short fixed wait "then one retry", i.e. at most 2 generation calls on a turn
whose attempts all fail with a non-rate error; the code issues 3 calls
(it keeps retrying through all remaining attempts). -/
theorem debate_retry_counterexample :
    (generate_response true (fun _ => GenOutcome.exn false)).calls = 3 ∧
    ¬((generate_response true (fun _ => GenOutcome.exn false)).calls ≤ 2) := by
  refine ⟨by decide, by decide⟩

/-- C2 (amended): each debate turn's generation call is retried up to a fixed
cap of 3 attempts.  A rate-limited failure is followed by a wait before the
next attempt, with linearly increasing waits (5s, then 10s); any other failure
is followed by a fixed 2s wait and a retry on *each* remaining attempt (not
just one retry); after exhausting the attempts the turn returns None and the
engine records nothing for it and proceeds to the next speaker instead of
aborting the run. -/
theorem debate_retry_policy :
    (∀ attempts : Nat → GenOutcome, (generate_response true attempts).calls ≤ 3) ∧
    (∀ (attempts : Nat → GenOutcome) (s : String), 20 < s.length →
       attempts 0 = .exn true → attempts 1 = .ret (some s) →
       generate_response true attempts = { result := some s, waits := [5], calls := 2 }) ∧
    (∀ attempts : Nat → GenOutcome, (∀ i, i < 3 → attempts i = .exn true) →
       generate_response true attempts = { result := none, waits := [5, 10], calls := 3 }) ∧
    (∀ attempts : Nat → GenOutcome, (∀ i, i < 3 → attempts i = .exn false) →
       generate_response true attempts = { result := none, waits := [2, 2, 2], calls := 3 }) ∧
    (∀ (oracle : Nat → Nat → GenOutcome) (event_id : String)
       (predictions : List AgentPrediction) (rounds : Nat) (s : String),
       2 ≤ predictions.length → 20 < s.length →
       (∀ a, oracle 0 a = .exn false) →
       (∀ i, 1 ≤ i → ∀ a, oracle i a = .ret (some s)) →
       (run_debate true oracle event_id predictions rounds).1.isSome = true ∧
       (transcriptOf (run_debate true oracle event_id predictions rounds)).length =
         (debateSpeakers predictions rounds).length - 1) := by
  refine ⟨?_, ?_, ?_, ?_, ?_⟩
  · intro attempts
    exact genTry_calls_le attempts 3 0 5
  · intro attempts s hs h0 h1
    simp [generate_response, genTry, h0, h1, truthyLong_of_long hs]
  · intro attempts hall
    have h0 := hall 0 (by omega)
    have h1 := hall 1 (by omega)
    have h2 := hall 2 (by omega)
    simp [generate_response, genTry, h0, h1, h2]
  · intro attempts hall
    have h0 := hall 0 (by omega)
    have h1 := hall 1 (by omega)
    have h2 := hall 2 (by omega)
    simp [generate_response, genTry, h0, h1, h2]
  · intro oracle event_id predictions rounds s h2 hs h0 h1
    have hlen : ¬(predictions.length < 2) := by omega
    refine ⟨by simp [run_debate, hlen], ?_⟩
    simp only [run_debate, if_neg hlen, transcriptOf]
    have hge : predictions.length ≤ (debateSpeakers predictions rounds).length := by
      unfold debateSpeakers
      rw [List.length_append]
      omega
    cases hds : debateSpeakers predictions rounds with
    | nil =>
      exfalso
      rw [hds] at hge
      simp only [List.length_nil, Nat.le_zero] at hge
      omega
    | cons q qs =>
      have hfail : (generate_response true (oracle 0)).result = none := by
        rw [show generate_response true (oracle 0) = genTry (oracle 0) 0 5 3 from rfl,
          genTry_all_other_fail (oracle 0) 3 0 5 h0]
      have hsucc := runTurns_all_success oracle s hs qs 1 (fun i hi a => h1 i hi a)
      simp only [runTurns, hfail]
      simp [hsucc.1]

theorem debate_retry_policy_witness :
    generate_response true (fun _ => GenOutcome.exn true) =
      { result := none, waits := [5, 10], calls := 3 } :=
  debate_retry_policy.2.2.1 (fun _ => GenOutcome.exn true) (fun _ _ => rfl)

/-- C5: for every non-empty list of locked forecasts whose outcomes lie in
YES/NO, the derived consensus state is true iff the set of outcomes has
cardinality 1; in particular outcomes YES,YES,YES give true and YES,YES,NO
give false. -/
theorem consensus_state_iff (predictions : List AgentPrediction)
    (hne : predictions ≠ [])
    (hout : ∀ p ∈ predictions, p.prediction = "YES" ∨ p.prediction = "NO") :
    (consensus_mode predictions = true ↔
      (predictions.map (fun p => p.prediction)).toFinset.card = 1) ∧
    consensus_mode [mkPred "A" "YES", mkPred "B" "YES", mkPred "C" "YES"] = true ∧
    consensus_mode [mkPred "A" "YES", mkPred "B" "YES", mkPred "C" "NO"] = false := by
  refine ⟨?_, by decide, by decide⟩
  obtain ⟨q, t, rfl⟩ := List.exists_cons_of_ne_nil hne
  constructor
  · intro h
    simp only [consensus_mode, Bool.or_eq_true, List.all_eq_true, beq_iff_eq] at h
    rw [Finset.card_eq_one]
    rcases h with hy | hn
    · refine ⟨"YES", ?_⟩
      ext a
      simp only [List.mem_toFinset, List.mem_map, Finset.mem_singleton]
      constructor
      · rintro ⟨p, hp, rfl⟩
        exact hy p hp
      · rintro rfl
        exact ⟨q, List.mem_cons_self q t, hy q (List.mem_cons_self q t)⟩
    · refine ⟨"NO", ?_⟩
      ext a
      simp only [List.mem_toFinset, List.mem_map, Finset.mem_singleton]
      constructor
      · rintro ⟨p, hp, rfl⟩
        exact hn p hp
      · rintro rfl
        exact ⟨q, List.mem_cons_self q t, hn q (List.mem_cons_self q t)⟩
  · intro h
    obtain ⟨a, ha⟩ := Finset.card_eq_one.mp h
    have hall : ∀ p ∈ q :: t, p.prediction = a := by
      intro p hp
      have hmem : p.prediction ∈ ((q :: t).map (fun p => p.prediction)).toFinset := by
        rw [List.mem_toFinset, List.mem_map]
        exact ⟨p, hp, rfl⟩
      rw [ha, Finset.mem_singleton] at hmem
      exact hmem
    have hqa : q.prediction = a := hall q (List.mem_cons_self q t)
    simp only [consensus_mode, Bool.or_eq_true, List.all_eq_true, beq_iff_eq]
    rcases hout q (List.mem_cons_self q t) with hq | hq
    · left
      intro p hp
      rw [hall p hp, ← hqa, hq]
    · right
      intro p hp
      rw [hall p hp, ← hqa, hq]

theorem consensus_state_iff_witness :
    ((consensus_mode [mkPred "A" "YES", mkPred "B" "NO"] = true ↔
       (([mkPred "A" "YES", mkPred "B" "NO"]).map (fun p => p.prediction)).toFinset.card = 1) ∧
      consensus_mode [mkPred "A" "YES", mkPred "B" "YES", mkPred "C" "YES"] = true ∧
      consensus_mode [mkPred "A" "YES", mkPred "B" "YES", mkPred "C" "NO"] = false) :=
  consensus_state_iff [mkPred "A" "YES", mkPred "B" "NO"] (by decide) (by decide)

/-- C10: every public adapter operation is total at its interface: when
`is_valid()` is false, or when the underlying provider call raises any
exception, the operation returns None instead of propagating — no call on a
UnifiedLLM instance raises to its caller (the embedding's explicit outcome
handling is exhaustive: every exception constructor maps to None). -/
theorem unified_llm_total (api_key : String) (tg tj : CallOutcome String)
    (tw : CallOutcome (Option String)) :
    (UnifiedLLM.is_valid api_key = false →
      UnifiedLLM.generate api_key tg = none ∧
      UnifiedLLM.generate_json api_key tj = none ∧
      UnifiedLLM.generate_with_tools api_key tw = none) ∧
    UnifiedLLM.generate api_key .exn = none ∧
    UnifiedLLM.generate_json api_key .exn = none ∧
    UnifiedLLM.generate_with_tools api_key .exn = none := by
  refine ⟨fun h => ?_, ?_, ?_, ?_⟩
  · refine ⟨?_, ?_, ?_⟩ <;>
      simp [UnifiedLLM.generate, UnifiedLLM.generate_json, UnifiedLLM.generate_with_tools, h]
  all_goals
    cases h : UnifiedLLM.is_valid api_key <;>
      simp [UnifiedLLM.generate, UnifiedLLM.generate_json, UnifiedLLM.generate_with_tools, h]

theorem unified_llm_total_witness :
    UnifiedLLM.is_valid "xai-short" = false ∧
    (UnifiedLLM.generate "xai-short" (.ok "text") = none ∧
     UnifiedLLM.generate_json "xai-short" (.ok "text") = none ∧
     UnifiedLLM.generate_with_tools "xai-short" (.ok (some "text")) = none) :=
  ⟨by decide,
   (unified_llm_total "xai-short" (.ok "text") (.ok "text") (.ok (some "text"))).1 (by decide)⟩

/-- C8: the research tool executor is total for every query string (a total
function of its explicit transport outcome): a falsy key — no key at all, or
an empty-string key, Python truthiness — yields the sentinel string with no
search attempted; with a truthy key a transport exception or a non-200 status
also yields the sentinel, not an error; a 200 response is formatted as at
most 3 "- <title>: <snippet>" lines with each snippet truncated to 200
characters. -/
theorem execute_web_search_spec (query : String) (tk ek : Option String) :
    (truthyKey (orTruthy tk ek) = false →
      ∀ http, execute_web_search query tk ek http = searchSentinel query) ∧
    (truthyKey (orTruthy tk ek) = true →
      execute_web_search query tk ek .exn = searchSentinel query ∧
      (∀ status results, status ≠ 200 →
        execute_web_search query tk ek (.resp status results) = searchSentinel query) ∧
      (∀ results,
        execute_web_search query tk ek (.resp 200 results) =
          "Search results for '" ++ query ++ "':\n" ++
            String.intercalate "\n" ((results.take 3).map formatResult) ∧
        ((results.take 3).map formatResult).length ≤ 3 ∧
        ∀ r : SearchResult,
          formatResult r =
            "- " ++ r.title.getD "N/A" ++ ": " ++ String.mk ((r.content.getD "").data.take 200) ∧
          (String.mk ((r.content.getD "").data.take 200)).length ≤ 200)) := by
  constructor
  · intro h http
    cases http <;> simp [execute_web_search, h]
  · intro hkey
    refine ⟨?_, ?_, ?_⟩
    · simp [execute_web_search, hkey]
    · intro status results hst
      simp [execute_web_search, hkey, hst]
    · intro results
      refine ⟨by simp [execute_web_search, hkey], ?_, ?_⟩
      · calc ((results.take 3).map formatResult).length = (results.take 3).length := by
              rw [List.length_map]
          _ ≤ 3 := by
              rw [List.length_take]
              exact min_le_left _ _
      · intro r
        refine ⟨rfl, ?_⟩
        show ((r.content.getD "").data.take 200).length ≤ 200
        rw [List.length_take]
        exact min_le_left _ _

theorem execute_web_search_spec_witness :
    execute_web_search "berlin" (some "tvly-key") none
        (.resp 200 [{ title := some "T1", content := some "C1" },
                    { title := none, content := none },
                    { title := some "T3", content := some "C3" },
                    { title := some "T4", content := some "C4" }]) =
      "Search results for 'berlin':\n- T1: C1\n- N/A: \n- T3: C3" ∧
    execute_web_search "berlin" none (some "")
        (.resp 200 [{ title := some "T1", content := some "C1" }]) =
      searchSentinel "berlin" ∧
    execute_web_search "berlin" none none .exn = searchSentinel "berlin" := by
  refine ⟨?_, ?_, ?_⟩
  · have h := ((execute_web_search_spec "berlin" (some "tvly-key") none).2
      (by decide)).2.2 [{ title := some "T1", content := some "C1" },
                        { title := none, content := none },
                        { title := some "T3", content := some "C3" },
                        { title := some "T4", content := some "C4" }]
    rw [h.1]
    decide
  · exact (execute_web_search_spec "berlin" none (some "")).1 (by decide)
      (.resp 200 [{ title := some "T1", content := some "C1" }])
  · exact (execute_web_search_spec "berlin" none none).1 (by decide) .exn

theorem pyStartswith_data_cons {s p : String} {c : Char} {cs : List Char}
    (hp : p.data = c :: cs) (h : pyStartswith s p = true) :
    ∃ t, s.data = c :: t := by
  unfold pyStartswith at h
  rw [hp] at h
  cases hd : s.data with
  | nil => rw [hd] at h; simp [List.isPrefixOf] at h
  | cons d t =>
    rw [hd] at h
    simp only [List.isPrefixOf, Bool.and_eq_true, beq_iff_eq] at h
    exact ⟨t, by rw [h.1]⟩

theorem pyStartswith_false_of_head_ne (s p q : String) (a b : Char) (as bs : List Char)
    (hp : p.data = a :: as) (hq : q.data = b :: bs) (hne : b ≠ a)
    (h : pyStartswith s p = true) : pyStartswith s q = false := by
  obtain ⟨t, ht⟩ := pyStartswith_data_cons hp h
  unfold pyStartswith
  rw [hq, ht]
  have hba : (b == a) = false := beq_eq_false_iff_ne.mpr hne
  simp [List.isPrefixOf, hba]

/-- C4: the provider-identification function is total over all string inputs
(it is a total function; no case raises).  Credentials shorter than the
10-character minimum are classified invalid (`(None, None, False)`, distinct
from a recognized-but-low-capability provider), a recognized prefix yields
that provider's identity, default model and capability flag, and every other
string falls back to the groq identity with no tool calling. -/
theorem detect_api_type_spec (api_key : String) :
    (api_key.length < 10 → detect_api_type api_key = (none, none, false)) ∧
    (10 ≤ api_key.length →
      (pyStartswith api_key "gsk_" = true →
        detect_api_type api_key = (some "groq", some "llama-3.3-70b-versatile", false)) ∧
      (pyStartswith api_key "xai-" = true →
        detect_api_type api_key = (some "xai", some "grok-2-latest", true)) ∧
      (pyStartswith api_key "AIza" = true →
        detect_api_type api_key = (some "gemini", some "gemini-2.0-flash", true)) ∧
      (pyStartswith api_key "sk-" = true →
        detect_api_type api_key = (some "openai", some "gpt-4o", true)) ∧
      (pyStartswith api_key "gsk_" = false → pyStartswith api_key "xai-" = false →
       pyStartswith api_key "AIza" = false → pyStartswith api_key "sk-" = false →
        detect_api_type api_key = (some "groq", some "llama-3.3-70b-versatile", false))) := by
  constructor
  · intro h
    simp [detect_api_type, h]
  · intro h10'
    have h10 : ¬ api_key.length < 10 := by omega
    have hne : api_key ≠ "" := by
      intro he
      rw [he] at h10
      simp at h10
    refine ⟨?_, ?_, ?_, ?_, ?_⟩
    · intro hg
      simp [detect_api_type, API_CONFIGS, List.find?, hg, hne, h10]
    · intro hx
      have hg : pyStartswith api_key "gsk_" = false :=
        pyStartswith_false_of_head_ne api_key "xai-" "gsk_" 'x' 'g' "ai-".data "sk_".data
          (by decide) (by decide) (by decide) hx
      simp [detect_api_type, API_CONFIGS, List.find?, hg, hx, hne, h10]
    · intro ha
      have hg : pyStartswith api_key "gsk_" = false :=
        pyStartswith_false_of_head_ne api_key "AIza" "gsk_" 'A' 'g' "Iza".data "sk_".data
          (by decide) (by decide) (by decide) ha
      have hx : pyStartswith api_key "xai-" = false :=
        pyStartswith_false_of_head_ne api_key "AIza" "xai-" 'A' 'x' "Iza".data "ai-".data
          (by decide) (by decide) (by decide) ha
      simp [detect_api_type, API_CONFIGS, List.find?, hg, hx, ha, hne, h10]
    · intro hs
      have hg : pyStartswith api_key "gsk_" = false :=
        pyStartswith_false_of_head_ne api_key "sk-" "gsk_" 's' 'g' "k-".data "sk_".data
          (by decide) (by decide) (by decide) hs
      have hx : pyStartswith api_key "xai-" = false :=
        pyStartswith_false_of_head_ne api_key "sk-" "xai-" 's' 'x' "k-".data "ai-".data
          (by decide) (by decide) (by decide) hs
      have ha : pyStartswith api_key "AIza" = false :=
        pyStartswith_false_of_head_ne api_key "sk-" "AIza" 's' 'A' "k-".data "Iza".data
          (by decide) (by decide) (by decide) hs
      simp [detect_api_type, API_CONFIGS, List.find?, hg, hx, ha, hs, hne, h10]
    · intro hg hx ha hs
      simp [detect_api_type, API_CONFIGS, List.find?, hg, hx, ha, hs, hne, h10]

theorem detect_api_type_spec_witness :
    detect_api_type "xai-0123456789" = (some "xai", some "grok-2-latest", true) ∧
    detect_api_type "short" = (none, none, false) :=
  ⟨((detect_api_type_spec "xai-0123456789").2 (by decide)).2.1 (by decide),
   (detect_api_type_spec "short").1 (by decide)⟩

/-- C3: a tool-augmented generation call in which the model requests exactly
one (web_search) tool invocation on the first pass issues exactly 2 upstream
generation calls and exactly 1 executor call, with the executor result
appended as a tool-response message at the end of the message list given to
the second call (which carries no tools parameter, so no further tools can be
requested); and for every first-pass behaviour the upstream calls are bounded
by 2 and the executor calls by the number of requested tool calls — a fixed
single tool-processing iteration — after which the adapter returns the second
call's text. -/
theorem generate_with_tools_two_calls (first : AssistantMsg)
    (second : List Msg → String) (executor : String → String)
    (prompt system_prompt : String) (tc : ToolCall)
    (hcalls : first.tool_calls = [tc]) (hname : tc.fname = "web_search") :
    (generate_openai_with_function_calling first second executor prompt system_prompt =
      { result := some (second
            ((if system_prompt ≠ "" then [Msg.system system_prompt] else []) ++
              [Msg.user prompt] ++ [Msg.assistant first] ++
              [Msg.tool tc.id (executor (queryArg tc.args))])).trim,
        upstream_calls := 2, executor_calls := 1,
        second_messages := some
          ((if system_prompt ≠ "" then [Msg.system system_prompt] else []) ++
            [Msg.user prompt] ++ [Msg.assistant first] ++
            [Msg.tool tc.id (executor (queryArg tc.args))]) }) ∧
    (∀ f : AssistantMsg,
      (generate_openai_with_function_calling f second executor prompt system_prompt).upstream_calls
        ≤ 2 ∧
      (generate_openai_with_function_calling f second executor prompt system_prompt).executor_calls
        ≤ f.tool_calls.length) := by
  constructor
  · simp [generate_openai_with_function_calling, hcalls, appendToolResults, toolResult, hname,
      List.append_assoc]
  · intro f
    by_cases hf : f.tool_calls.isEmpty
    · simp [generate_openai_with_function_calling, hf]
    · simp only [generate_openai_with_function_calling, hf, Bool.not_false, if_pos rfl]
      refine ⟨Nat.le_refl 2, ?_⟩
      have : ∀ (tcs : List ToolCall) (msgs : List Msg),
          (appendToolResults executor msgs tcs).2 ≤ tcs.length := by
        intro tcs
        induction tcs with
        | nil => intro msgs; simp [appendToolResults]
        | cons t rest ih =>
          intro msgs
          simp only [appendToolResults, List.length_cons]
          have hih := ih (msgs ++ [Msg.tool t.id (toolResult executor t)])
          by_cases hw : t.fname = "web_search" <;> simp [hw] <;> omega
      exact this f.tool_calls _

theorem generate_with_tools_two_calls_witness :
    firstW.tool_calls = [tcW] ∧ tcW.fname = "web_search" ∧
    generate_openai_with_function_calling firstW secondW executorW "p" "sys" =
      { result := some (secondW
            ((if ("sys" : String) ≠ "" then [Msg.system "sys"] else []) ++
              [Msg.user "p"] ++ [Msg.assistant firstW] ++
              [Msg.tool tcW.id (executorW (queryArg tcW.args))])).trim,
        upstream_calls := 2, executor_calls := 1,
        second_messages := some
          ((if ("sys" : String) ≠ "" then [Msg.system "sys"] else []) ++
            [Msg.user "p"] ++ [Msg.assistant firstW] ++
            [Msg.tool tcW.id (executorW (queryArg tcW.args))]) } :=
  ⟨rfl, rfl,
   (generate_with_tools_two_calls firstW secondW executorW "p" "sys" tcW rfl rfl).1⟩

theorem model_validate_prob_field {j : Json} {pred : PredictionOutput}
    (h : PredictionOutput.model_validate j = some pred) :
    ∃ q : ℚ, jLookup j "probability" = some (.num q) ∧ 0 ≤ q ∧ q ≤ 1 ∧
      pred.probability = q := by
  simp only [PredictionOutput.model_validate, Option.bind_eq_some, Option.some.injEq] at h
  obtain ⟨ev, ⟨vev, hvev, hevs⟩, pr, ⟨vpr, hvpr, hprs⟩, prob, ⟨vp, hvp, hparse⟩,
    kfs, ⟨vkf, hvkf, hkfs⟩, rat, ⟨vrat, hvrat, hrats⟩, heq⟩ := h
  cases vp with
  | num q =>
    simp only [parseProbability] at hparse
    split at hparse
    · rename_i hrange
      refine ⟨q, hvp, hrange.1, hrange.2, ?_⟩
      rw [← heq]
      exact (Option.some.injEq _ _ ▸ hparse).symm
    · exact absurd hparse (by simp)
  | str s => simp [parseProbability] at hparse
  | arr xs => simp [parseProbability] at hparse
  | obj fs => simp [parseProbability] at hparse

/-- C1 (amended): every forecast handed to the Orchestration Engine by
`run_battle` has probability within [0,1] and outcome in YES/NO; a payload
whose probability lies outside [0,1] fails validation outright (it is never
clamped: the whole forecast is rejected and the raising agent contributes
nothing, as the length equation shows).  However, the claims list is not
required to be non-empty: a Forecast with an empty `key_facts` list passes
pydantic validation and does reach the engine (see the counterexample). -/
theorem run_battle_validation (agents : List (String × Option Json)) :
    (∀ p ∈ (run_battle agents).2,
        0 ≤ p.probability ∧ p.probability ≤ 1 ∧
        (p.prediction = "YES" ∨ p.prediction = "NO")) ∧
    (∀ (j : Json) (q : ℚ), jLookup j "probability" = some (.num q) → (q < 0 ∨ 1 < q) →
        PredictionOutput.model_validate j = none) ∧
    (run_battle agents).2.length =
      (agents.filter (fun a => (generate_prediction a.2).isSome)).length := by
  refine ⟨?_, ?_, ?_⟩
  · induction agents with
    | nil => intro p hp; simp [run_battle] at hp
    | cons a rest ih =>
      obtain ⟨name, out⟩ := a
      intro p hp
      simp only [run_battle] at hp
      cases hgp : generate_prediction out with
      | none =>
        rw [hgp] at hp
        exact ih p hp
      | some pred =>
        rw [hgp] at hp
        rcases List.mem_cons.mp hp with h1 | h1
        · subst h1
          have hval : PredictionOutput.model_validate (out.getD (Json.str "")) = some pred ∨
              ∃ j, out = some j ∧ PredictionOutput.model_validate j = some pred := by
            cases out with
            | none => simp [generate_prediction] at hgp
            | some j =>
              right
              exact ⟨j, rfl, by simpa [generate_prediction] using hgp⟩
          have hrange : 0 ≤ pred.probability ∧ pred.probability ≤ 1 := by
            rcases hval with hv | ⟨j, _, hv⟩
            · obtain ⟨q, _, hq0, hq1, hpq⟩ := model_validate_prob_field hv
              rw [hpq]; exact ⟨hq0, hq1⟩
            · obtain ⟨q, _, hq0, hq1, hpq⟩ := model_validate_prob_field hv
              rw [hpq]; exact ⟨hq0, hq1⟩
          refine ⟨hrange.1, hrange.2, ?_⟩
          cases pred.prediction with
          | YES => left; rfl
          | NO => right; rfl
        · exact ih p h1
  · intro j q hlook hout
    cases hmv : PredictionOutput.model_validate j with
    | none => rfl
    | some pred =>
      exfalso
      obtain ⟨q', hq', hq0, hq1, _⟩ := model_validate_prob_field hmv
      rw [hlook] at hq'
      have hqq : Json.num q = Json.num q' := Option.some.inj hq'
      have : q = q' := by injection hqq
      subst this
      rcases hout with h | h <;> linarith
  · induction agents with
    | nil => simp [run_battle]
    | cons a rest ih =>
      obtain ⟨name, out⟩ := a
      simp only [run_battle, List.filter_cons]
      cases hgp : generate_prediction out with
      | none => simp [hgp, ih]
      | some pred => simp [hgp, ih]

/-- C1 counterexample: a payload with an empty `key_facts` list passes
validation and its forecast appears in the `agent_predictions` handed to the
debate engine — contradicting "a Forecast with ... an empty claims list never
reaches the Orchestration Engine". -/
theorem run_battle_empty_claims_counterexample :
    ((run_battle [("Gemini", some emptyClaimsPayload)]).2.map fun p => p.key_facts) = [[]] ∧
    ((run_battle [("Gemini", some emptyClaimsPayload)]).2.map fun p => p.prediction) =
      ["YES"] := by
  constructor <;> decide

theorem run_battle_validation_witness :
    0 ≤ ({ agent_name := "Gemini", prediction := "YES", probability := mkRat 13 20,
           rationale := "r", key_facts := [] } : AgentPrediction).probability ∧
    ({ agent_name := "Gemini", prediction := "YES", probability := mkRat 13 20,
       rationale := "r", key_facts := [] } : AgentPrediction).probability ≤ 1 ∧
    (({ agent_name := "Gemini", prediction := "YES", probability := mkRat 13 20,
        rationale := "r", key_facts := [] } : AgentPrediction).prediction = "YES" ∨
     ({ agent_name := "Gemini", prediction := "YES", probability := mkRat 13 20,
        rationale := "r", key_facts := [] } : AgentPrediction).prediction = "NO") :=
  (run_battle_validation [("Gemini", some emptyClaimsPayload)]).1 _ (by decide)

/-! ### Helper lemmas for the payload codec round trip -/

theorem isPrefixOf_append_self (l rest : List Char) : l.isPrefixOf (l ++ rest) = true := by
  induction l with
  | nil => simp [List.isPrefixOf]
  | cons c cs ih => simp [List.isPrefixOf, ih]

theorem expectLit_append (l rest : List Char) : expectLit l (l ++ rest) = some rest := by
  simp [expectLit, isPrefixOf_append_self, List.drop_left]

theorem takeWhile_all_append (p : Char → Bool) (tk : List Char) (d : Char) (rs : List Char)
    (h : ∀ c ∈ tk, p c = true) (hd : p d = false) :
    (tk ++ d :: rs).takeWhile p = tk := by
  induction tk with
  | nil => simp [List.takeWhile_cons, hd]
  | cons c cs ih =>
    have hc : p c = true := h c (List.mem_cons_self c cs)
    simp only [List.cons_append, List.takeWhile_cons, hc, if_true]
    rw [ih (fun x hx => h x (List.mem_cons_of_mem c hx))]

theorem dropWhile_all_append (p : Char → Bool) (tk : List Char) (d : Char) (rs : List Char)
    (h : ∀ c ∈ tk, p c = true) (hd : p d = false) :
    (tk ++ d :: rs).dropWhile p = d :: rs := by
  induction tk with
  | nil => simp [List.dropWhile_cons, hd]
  | cons c cs ih =>
    have hc : p c = true := h c (List.mem_cons_self c cs)
    simp only [List.cons_append, List.dropWhile_cons, hc, if_true]
    exact ih (fun x hx => h x (List.mem_cons_of_mem c hx))

theorem parseJStr_render (s rest : List Char) (h : ∀ c ∈ s, (c != '"') = true) :
    parseJStr (renderStr s ++ rest) = some (s, rest) := by
  have hshape : renderStr s ++ rest = '"' :: (s ++ '"' :: rest) := by
    simp [renderStr]
  rw [hshape]
  unfold parseJStr
  simp only [List.take_succ_cons, List.take_zero, List.drop_succ_cons, List.drop_zero,
    if_pos rfl]
  rw [dropWhile_all_append _ s '"' rest h (by decide),
    takeWhile_all_append _ s '"' rest h (by decide)]
  simp

theorem digitChar_isDigit (d : Nat) : (digitChar d).isDigit = true := by
  rcases d with _|_|_|_|_|_|_|_|_|n <;> rfl

theorem digitChar_notQuoteTick (d : Nat) :
    (digitChar d != '"') = true ∧ (digitChar d != '`') = true ∧
    (digitChar d).isWhitespace = false := by
  rcases d with _|_|_|_|_|_|_|_|_|n <;> exact ⟨rfl, rfl, rfl⟩

theorem digitVal_digitChar (d : Nat) (h : d < 10) : digitVal (digitChar d) = d := by
  interval_cases d <;> rfl

theorem natChars_digits (n : Nat) : ∀ c ∈ natChars n, c.isDigit = true := by
  intro c hc
  unfold natChars at hc
  obtain ⟨d, _, rfl⟩ := List.mem_map.mp hc
  exact digitChar_isDigit d

theorem foldr_digits (L : List ℕ) (acc : Nat) :
    List.foldr (fun d a => a * 10 + d) acc L = acc * 10 ^ L.length + Nat.ofDigits 10 L := by
  induction L with
  | nil => simp
  | cons d t ih =>
    simp only [List.foldr_cons, ih, List.length_cons, Nat.ofDigits_cons]
    ring

theorem foldl_digitVal (L : List ℕ) (hL : ∀ d ∈ L, d < 10) (acc : Nat) :
    List.foldl (fun a c => a * 10 + digitVal c) acc (L.map digitChar) =
      List.foldl (fun a d => a * 10 + d) acc L := by
  induction L generalizing acc with
  | nil => rfl
  | cons d t ih =>
    simp only [List.map_cons, List.foldl_cons]
    rw [digitVal_digitChar d (hL d (List.mem_cons_self d t))]
    exact ih (fun x hx => hL x (List.mem_cons_of_mem d hx)) _

theorem parseDigits_natChars (n : Nat) : parseDigits (natChars n) = n := by
  unfold parseDigits natChars
  rw [foldl_digitVal _ (fun d hd =>
    Nat.digits_lt_base (by omega) (List.mem_reverse.mp hd)) 0]
  rw [List.foldl_reverse]
  have : List.foldr (fun x y => y * 10 + x) 0 (Nat.digits 10 n) =
      List.foldr (fun d a => a * 10 + d) 0 (Nat.digits 10 n) := rfl
  rw [this, foldr_digits]
  simp [Nat.ofDigits_digits]

theorem parseDigits_replicate_zero (k : Nat) (l : List Char) :
    parseDigits (List.replicate k '0' ++ l) = parseDigits l := by
  unfold parseDigits
  rw [List.foldl_append]
  congr 1
  induction k with
  | zero => rfl
  | succ n ih => simpa [List.replicate_succ, List.foldl_cons, digitVal] using ih

theorem list_isEmpty_false_of_length_pos {l : List Char} (h : 0 < l.length) :
    l.isEmpty = false := by
  cases l with
  | nil => simp at h
  | cons c cs => rfl

theorem parseProbChars_render (m e : Nat) (he : 1 ≤ e) (d : Char) (rs : List Char)
    (hd : d.isDigit = false) :
    parseProbChars (renderProb m e ++ d :: rs) = some ((m, e), d :: rs) := by
  set padded := List.replicate (e + 1 - (natChars m).length) '0' ++ natChars m with hpad
  have hpdigit : ∀ c ∈ padded, c.isDigit = true := by
    intro c hc
    rw [hpad] at hc
    rcases List.mem_append.mp hc with h | h
    · rw [List.eq_of_mem_replicate h]; rfl
    · exact natChars_digits m c h
  have hplen : e + 1 ≤ padded.length := by
    rw [hpad, List.length_append, List.length_replicate]
    omega
  have hipd : ∀ c ∈ padded.take (padded.length - e), c.isDigit = true := fun c hc =>
    hpdigit c (List.take_subset _ _ hc)
  have hfpd : ∀ c ∈ padded.drop (padded.length - e), c.isDigit = true := fun c hc =>
    hpdigit c (List.drop_subset _ _ hc)
  have hiplen : (padded.take (padded.length - e)).length = padded.length - e := by
    rw [List.length_take]; omega
  have hfplen : (padded.drop (padded.length - e)).length = e := by
    rw [List.length_drop]
    omega
  have hshape : renderProb m e ++ d :: rs =
      padded.take (padded.length - e) ++ '.' ::
        (padded.drop (padded.length - e) ++ d :: rs) := by
    simp [renderProb, hpad, List.append_assoc]
  rw [hshape]
  have hip0 : (padded.take (padded.length - e)).isEmpty = false := by
    apply list_isEmpty_false_of_length_pos
    omega
  have hfp0 : (padded.drop (padded.length - e)).isEmpty = false := by
    apply list_isEmpty_false_of_length_pos
    omega
  simp only [parseProbChars]
  rw [takeWhile_all_append _ _ '.' _ hipd (by rfl),
    dropWhile_all_append _ _ '.' _ hipd (by rfl)]
  simp only [hip0, Bool.false_eq_true, if_false, List.take_succ_cons, List.take_zero,
    List.drop_succ_cons, List.drop_zero, if_pos rfl]
  rw [takeWhile_all_append _ _ d rs hfpd hd, dropWhile_all_append _ _ d rs hfpd hd]
  simp only [hfp0, Bool.false_eq_true, if_false, List.take_append_drop, hfplen]
  rw [hpad, parseDigits_replicate_zero, parseDigits_natChars]
  simp

theorem expectLit_self (l : List Char) : expectLit l l = some [] := by
  have h := expectLit_append l []
  rwa [List.append_nil] at h

theorem parseKeyFactChars_render (kf : List Char × List Char) (rest : List Char)
    (h1 : ∀ c ∈ kf.1, (c != '"') = true) (h2 : ∀ c ∈ kf.2, (c != '"') = true) :
    parseKeyFactChars (renderKeyFact kf ++ rest) = some (kf, rest) := by
  have hshape : renderKeyFact kf ++ rest =
      lit "\x7b\"claim\": " ++ (renderStr kf.1 ++ (lit ", \"source\": " ++
        (renderStr kf.2 ++ (lit "\x7d" ++ rest)))) := by
    simp [renderKeyFact, List.append_assoc]
  rw [hshape]
  unfold parseKeyFactChars
  rw [expectLit_append, Option.some_bind, parseJStr_render kf.1 _ h1, Option.some_bind]
  rw [expectLit_append, Option.some_bind, parseJStr_render kf.2 _ h2, Option.some_bind]
  rw [expectLit_append, Option.some_bind]

theorem renderKeyFact_head (kf : List Char × List Char) :
    renderKeyFact kf = '\x7b' :: (lit "\"claim\": " ++ (renderStr kf.1 ++
      (lit ", \"source\": " ++ (renderStr kf.2 ++ lit "\x7d")))) := by
  simp [renderKeyFact, List.append_assoc]
  rfl

theorem renderKeyFacts_cons_shape (kf : List Char × List Char)
    (t : List (List Char × List Char)) :
    ∃ X, renderKeyFacts (kf :: t) = '\x7b' :: X := by
  cases t with
  | nil =>
    refine ⟨lit "\"claim\": " ++ (renderStr kf.1 ++
      (lit ", \"source\": " ++ (renderStr kf.2 ++ lit "\x7d"))), ?_⟩
    simp only [renderKeyFacts]
    exact renderKeyFact_head kf
  | cons kf2 t2 =>
    refine ⟨(lit "\"claim\": " ++ (renderStr kf.1 ++
      (lit ", \"source\": " ++ (renderStr kf.2 ++ lit "\x7d")))) ++
      (lit ", " ++ renderKeyFacts (kf2 :: t2)), ?_⟩
    simp only [renderKeyFacts]
    rw [renderKeyFact_head]
    simp [List.append_assoc]

theorem renderKeyFacts_length_ge (kfs : List (List Char × List Char)) :
    kfs.length ≤ (renderKeyFacts kfs).length := by
  induction kfs with
  | nil => simp [renderKeyFacts]
  | cons kf rest ih =>
    cases rest with
    | nil =>
      simp only [renderKeyFacts, List.length_cons, List.length_nil]
      rw [renderKeyFact_head]
      simp
    | cons kf2 t =>
      simp only [renderKeyFacts, List.length_cons] at *
      rw [renderKeyFact_head]
      simp only [List.cons_append, List.length_cons, List.length_append]
      omega

theorem parseKeyFactsChars_render (kfs : List (List Char × List Char)) :
    ∀ (fuel : Nat) (rs : List Char), kfs ≠ [] → kfs.length ≤ fuel →
    (∀ kf ∈ kfs, (∀ c ∈ kf.1, (c != '"') = true) ∧ (∀ c ∈ kf.2, (c != '"') = true)) →
    parseKeyFactsChars fuel (renderKeyFacts kfs ++ ']' :: rs) = some (kfs, ']' :: rs) := by
  induction kfs with
  | nil => intro fuel rs hne; exact absurd rfl hne
  | cons kf t ih =>
    intro fuel rs _ hlen hclean
    cases fuel with
    | zero => simp at hlen
    | succ f =>
      have hkf := hclean kf (List.mem_cons_self kf t)
      cases t with
      | nil =>
        simp only [renderKeyFacts]
        unfold parseKeyFactsChars
        rw [parseKeyFactChars_render kf _ hkf.1 hkf.2, Option.some_bind]
        simp
      | cons kf2 t2 =>
        have hshape : (renderKeyFact kf ++ lit ", " ++ renderKeyFacts (kf2 :: t2)) ++ ']' :: rs =
            renderKeyFact kf ++ (',' :: ' ' :: (renderKeyFacts (kf2 :: t2) ++ ']' :: rs)) := by
          have hc : lit ", " = [',', ' '] := rfl
          simp [hc, List.append_assoc]
        simp only [renderKeyFacts]
        rw [hshape]
        unfold parseKeyFactsChars
        rw [parseKeyFactChars_render kf _ hkf.1 hkf.2, Option.some_bind]
        simp only [List.take_succ_cons, List.take_zero, List.drop_succ_cons, List.drop_zero,
          if_pos rfl]
        rw [ih f rs (by simp) (by simp at hlen ⊢; omega)
          (fun x hx => hclean x (List.mem_cons_of_mem kf hx)), Option.some_bind]
        simp

theorem parseKeyFactList_render (kfs : List (List Char × List Char)) (rs : List Char)
    (hclean : ∀ kf ∈ kfs, (∀ c ∈ kf.1, (c != '"') = true) ∧
      (∀ c ∈ kf.2, (c != '"') = true)) :
    parseKeyFactList (lit "[" ++ (renderKeyFacts kfs ++ ']' :: rs)) = some (kfs, rs) := by
  unfold parseKeyFactList
  rw [expectLit_append, Option.some_bind]
  cases kfs with
  | nil => simp [renderKeyFacts]
  | cons kf t =>
    obtain ⟨X, hX⟩ := renderKeyFacts_cons_shape kf t
    have hne : ((renderKeyFacts (kf :: t) ++ ']' :: rs).take 1) ≠ [']'] := by
      rw [hX]
      simp
    rw [if_neg hne]
    have hfuel : (kf :: t).length ≤ (renderKeyFacts (kf :: t) ++ ']' :: rs).length := by
      rw [List.length_append]
      have := renderKeyFacts_length_ge (kf :: t)
      omega
    rw [parseKeyFactsChars_render (kf :: t) _ rs (by simp) hfuel hclean, Option.some_bind]
    have hr : (']' : Char) :: rs = lit "]" ++ rs := rfl
    rw [hr, expectLit_append, Option.some_bind]

theorem cleanChar_props {c : Char} (h : cleanChar c = true) :
    (c != '"') = true ∧ (c != '`') = true := by
  simp only [cleanChar, Bool.and_eq_true] at h
  exact ⟨h.1.1.2, h.2⟩

theorem jsonCleanPayload_parts {pl : ForecastPayload} (h : jsonCleanPayload pl = true) :
    (∀ c ∈ pl.event_id, cleanChar c = true) ∧ (∀ c ∈ pl.prediction, cleanChar c = true) ∧
    (∀ c ∈ pl.rationale, cleanChar c = true) ∧
    (∀ kf ∈ pl.key_facts,
      (∀ c ∈ kf.1, cleanChar c = true) ∧ (∀ c ∈ kf.2, cleanChar c = true)) ∧
    (pl.prediction = lit "YES" ∨ pl.prediction = lit "NO") ∧
    1 ≤ pl.probE ∧ pl.probM ≤ 10 ^ pl.probE := by
  simp only [jsonCleanPayload, Bool.and_eq_true, Bool.or_eq_true, List.all_eq_true,
    decide_eq_true_eq] at h
  obtain ⟨⟨⟨⟨⟨⟨hA, hB⟩, hC⟩, hD⟩, hE'⟩, hF⟩, hG⟩ := h
  exact ⟨hA, hB, hC, hD, hE', hF, hG⟩

theorem parsePayloadChars_render (pl : ForecastPayload) (h : jsonCleanPayload pl = true) :
    parsePayloadChars (renderPayload pl) = some (pl, []) := by
  obtain ⟨hev, hpr, hrat, hkf, _, hE, _⟩ := jsonCleanPayload_parts h
  have hevq : ∀ c ∈ pl.event_id, (c != '"') = true := fun c hc => (cleanChar_props (hev c hc)).1
  have hprq : ∀ c ∈ pl.prediction, (c != '"') = true := fun c hc => (cleanChar_props (hpr c hc)).1
  have hratq : ∀ c ∈ pl.rationale, (c != '"') = true :=
    fun c hc => (cleanChar_props (hrat c hc)).1
  have hkfq : ∀ kf ∈ pl.key_facts,
      (∀ c ∈ kf.1, (c != '"') = true) ∧ (∀ c ∈ kf.2, (c != '"') = true) :=
    fun kf hkf' => ⟨fun c hc => (cleanChar_props ((hkf kf hkf').1 c hc)).1,
                    fun c hc => (cleanChar_props ((hkf kf hkf').2 c hc)).1⟩
  have e1 : lit ", \"key_facts\": [" = lit ", \"key_facts\": " ++ lit "[" := rfl
  have e2 : lit "], \"rationale\": " = ']' :: lit ", \"rationale\": " := rfl
  have hshape : renderPayload pl =
      lit "\x7b\"event_id\": " ++ (renderStr pl.event_id ++ (lit ", \"prediction\": " ++
        (renderStr pl.prediction ++ (lit ", \"probability\": " ++
          (renderProb pl.probM pl.probE ++ (lit ", \"key_facts\": " ++ (lit "[" ++
            (renderKeyFacts pl.key_facts ++ (']' :: (lit ", \"rationale\": " ++
              (renderStr pl.rationale ++ lit "\x7d"))))))))))) := by
    rw [renderPayload, e1, e2]
    simp [List.append_assoc]
  rw [hshape]
  unfold parsePayloadChars
  rw [expectLit_append, Option.some_bind, parseJStr_render _ _ hevq, Option.some_bind]
  rw [expectLit_append, Option.some_bind, parseJStr_render _ _ hprq, Option.some_bind]
  rw [expectLit_append, Option.some_bind]
  rw [show lit ", \"key_facts\": " ++ (lit "[" ++ (renderKeyFacts pl.key_facts ++
       (']' :: (lit ", \"rationale\": " ++ (renderStr pl.rationale ++ lit "\x7d"))))) =
     ',' :: (lit " \"key_facts\": " ++ (lit "[" ++ (renderKeyFacts pl.key_facts ++
       (']' :: (lit ", \"rationale\": " ++ (renderStr pl.rationale ++ lit "\x7d")))))) from rfl]
  rw [parseProbChars_render pl.probM pl.probE hE ',' _ (by rfl), Option.some_bind]
  rw [show (',' :: (lit " \"key_facts\": " ++ (lit "[" ++ (renderKeyFacts pl.key_facts ++
       (']' :: (lit ", \"rationale\": " ++ (renderStr pl.rationale ++ lit "\x7d"))))))) =
     lit ", \"key_facts\": " ++ (lit "[" ++ (renderKeyFacts pl.key_facts ++
       (']' :: (lit ", \"rationale\": " ++ (renderStr pl.rationale ++ lit "\x7d"))))) from rfl]
  rw [expectLit_append, Option.some_bind]
  rw [parseKeyFactList_render pl.key_facts _ hkfq, Option.some_bind]
  rw [expectLit_append, Option.some_bind, parseJStr_render _ _ hratq, Option.some_bind]
  rw [expectLit_self, Option.some_bind]

theorem hasSub_cons_nil (hd : Char) (tl : List Char) : hasSub (hd :: tl) [] = false := rfl

theorem hasSub_prefix (hd : Char) (tl rest : List Char) :
    hasSub (hd :: tl) ((hd :: tl) ++ rest) = true := by
  have h : (hd :: tl).isPrefixOf (hd :: (tl ++ rest)) = true :=
    isPrefixOf_append_self (hd :: tl) rest
  show ((hd :: tl).isPrefixOf (hd :: (tl ++ rest)) || hasSub (hd :: tl) (tl ++ rest)) = true
  rw [h]
  simp

theorem hasSub_append_skip (hd : Char) (tl : List Char) (body tail : List Char)
    (hb : ∀ x ∈ body, (x != hd) = true) :
    hasSub (hd :: tl) (body ++ tail) = hasSub (hd :: tl) tail := by
  induction body with
  | nil => rfl
  | cons x xs ih =>
    have hx : (x != hd) = true := hb x (List.mem_cons_self x xs)
    have hhx : (hd == x) = false := by
      rw [beq_eq_false_iff_ne]
      intro he
      rw [he] at hx
      simp at hx
    calc hasSub (hd :: tl) ((x :: xs) ++ tail)
        = ((hd :: tl).isPrefixOf (x :: (xs ++ tail)) || hasSub (hd :: tl) (xs ++ tail)) := rfl
      _ = (false || hasSub (hd :: tl) tail) := by
            rw [ih (fun y hy => hb y (List.mem_cons_of_mem x hy))]
            have hp : (hd :: tl).isPrefixOf (x :: (xs ++ tail)) = false := by
              simp [List.isPrefixOf, hhx]
            rw [hp]
      _ = hasSub (hd :: tl) tail := by simp

theorem hasSub_all_ne (hd : Char) (tl : List Char) (body : List Char)
    (hb : ∀ x ∈ body, (x != hd) = true) :
    hasSub (hd :: tl) body = false := by
  have h := hasSub_append_skip hd tl body [] hb
  rw [List.append_nil] at h
  rw [h]
  rfl

theorem pySplitAux_nil (sep : List Char) (fuel : Nat) (acc : List Char) :
    pySplitAux sep fuel [] acc = [acc.reverse] := by
  cases fuel with
  | zero => simp [pySplitAux]
  | succ f => rfl

theorem pySplitAux_head_match (hd : Char) (tl : List Char) (fuel : Nat) (rest acc : List Char)
    (hf : 1 ≤ fuel) :
    pySplitAux (hd :: tl) fuel ((hd :: tl) ++ rest) acc =
      acc.reverse :: pySplitAux (hd :: tl) (fuel - 1) rest [] := by
  cases fuel with
  | zero => omega
  | succ f =>
    rw [Nat.add_sub_cancel]
    have hpre : (hd :: tl).isPrefixOf (hd :: (tl ++ rest)) = true :=
      isPrefixOf_append_self (hd :: tl) rest
    show (if (hd :: tl).isPrefixOf (hd :: (tl ++ rest)) = true then
        acc.reverse :: pySplitAux (hd :: tl) f ((tl ++ rest).drop ((hd :: tl).length - 1)) []
      else pySplitAux (hd :: tl) f (tl ++ rest) (hd :: acc)) =
      acc.reverse :: pySplitAux (hd :: tl) f rest []
    rw [if_pos hpre]
    rw [show (hd :: tl).length - 1 = tl.length from by simp]
    rw [List.drop_left]

theorem pySplitAux_skip (hd : Char) (tl : List Char) (body : List Char) :
    ∀ (fuel : Nat) (tail acc : List Char), (∀ x ∈ body, (x != hd) = true) →
    body.length + tail.length ≤ fuel →
    pySplitAux (hd :: tl) fuel (body ++ tail) acc =
      pySplitAux (hd :: tl) (fuel - body.length) tail (body.reverse ++ acc) := by
  induction body with
  | nil => intro fuel tail acc _ _; simp
  | cons x xs ih =>
    intro fuel tail acc hb hf
    cases fuel with
    | zero => simp at hf
    | succ f =>
      have hx : (x != hd) = true := hb x (List.mem_cons_self x xs)
      have hhx : (hd == x) = false := by
        rw [beq_eq_false_iff_ne]
        intro he
        rw [he] at hx
        simp at hx
      have hpre : (hd :: tl).isPrefixOf (x :: (xs ++ tail)) = false := by
        simp [List.isPrefixOf, hhx]
      show (if (hd :: tl).isPrefixOf (x :: (xs ++ tail)) = true then
          acc.reverse :: pySplitAux (hd :: tl) f ((xs ++ tail).drop ((hd :: tl).length - 1)) []
        else pySplitAux (hd :: tl) f (xs ++ tail) (x :: acc)) =
        pySplitAux (hd :: tl) (f + 1 - (x :: xs).length) tail ((x :: xs).reverse ++ acc)
      rw [hpre]
      simp only [Bool.false_eq_true, if_false]
      rw [ih f tail (x :: acc) (fun y hy => hb y (List.mem_cons_of_mem x hy))
        (by simp at hf ⊢; omega)]
      have h1 : f - xs.length = f + 1 - (x :: xs).length := by simp
      have h2 : xs.reverse ++ (x :: acc) = (x :: xs).reverse ++ acc := by simp
      rw [h1, h2]

theorem pySplitAux_step_no_match (sep : List Char) (fuel : Nat) (c : Char) (cs acc : List Char)
    (h : sep.isPrefixOf (c :: cs) = false) :
    pySplitAux sep (fuel + 1) (c :: cs) acc = pySplitAux sep fuel cs (c :: acc) := by
  show (if sep.isPrefixOf (c :: cs) = true then
      acc.reverse :: pySplitAux sep fuel (cs.drop (sep.length - 1)) []
    else pySplitAux sep fuel cs (c :: acc)) = pySplitAux sep fuel cs (c :: acc)
  rw [h]
  simp

theorem pySplitAux_json_ticks (fuel : Nat) (acc : List Char) (hf : 3 ≤ fuel) :
    pySplitAux ('`' :: lit "``json") fuel ['`', '`', '`'] acc =
      [acc.reverse ++ ['`', '`', '`']] := by
  rcases fuel with _|_|_|f
  · omega
  · omega
  · omega
  · rw [pySplitAux_step_no_match _ _ _ _ _ (by decide),
      pySplitAux_step_no_match _ _ _ _ _ (by decide),
      pySplitAux_step_no_match _ _ _ _ _ (by decide),
      pySplitAux_nil]
    simp

theorem pyStrip_wrap (mid : List Char) (c1 c2 : Char) (h1 : c1.isWhitespace = false)
    (h2 : c2.isWhitespace = false) :
    pyStrip ('\n' :: ((c1 :: (mid ++ [c2])) ++ ['\n'])) = c1 :: (mid ++ [c2]) := by
  unfold pyStrip
  rw [List.dropWhile_cons]
  simp only [show ('\n' : Char).isWhitespace = true from rfl, if_true]
  rw [show (c1 :: (mid ++ [c2])) ++ ['\n'] = c1 :: ((mid ++ [c2]) ++ ['\n']) from rfl]
  rw [List.dropWhile_cons]
  simp only [h1, Bool.false_eq_true, if_false]
  rw [show (c1 :: ((mid ++ [c2]) ++ ['\n'])).reverse =
    '\n' :: (c2 :: (mid.reverse ++ [c1])) from by simp]
  rw [List.dropWhile_cons]
  simp only [show ('\n' : Char).isWhitespace = true from rfl, if_true]
  rw [List.dropWhile_cons]
  simp only [h2, Bool.false_eq_true, if_false]
  simp

theorem pySplit_fence_json (body : List Char) (hbt : ∀ x ∈ body, (x != '`') = true) :
    pySplit (('`' :: lit "``json") ++ ('\n' :: body ++ '\n' :: lit "```"))
        ('`' :: lit "``json") =
      [[], '\n' :: body ++ '\n' :: lit "```"] := by
  have hb' : ∀ x ∈ '\n' :: body ++ ['\n'], (x != '`') = true := by
    intro x hx
    rcases List.mem_cons.mp hx with rfl | hx
    · rfl
    · rcases List.mem_append.mp hx with hx | hx
      · exact hbt x hx
      · rw [List.mem_singleton.mp hx]; rfl
  have hR : ('\n' : Char) :: body ++ '\n' :: lit "```" =
      ('\n' :: body ++ ['\n']) ++ ['`', '`', '`'] := by
    simp [lit]
  unfold pySplit
  rw [pySplitAux_head_match '`' (lit "``json") _ _ _
    (by simp only [List.length_append, List.length_cons]; omega)]
  rw [hR]
  rw [pySplitAux_skip '`' (lit "``json") _ _ _ _ hb'
    (by simp only [List.length_append, List.length_cons]; omega)]
  rw [pySplitAux_json_ticks _ _
    (by simp only [List.length_append, List.length_cons]; omega)]
  simp [hR]

theorem pySplit_body_ticks (body' : List Char) (hb : ∀ x ∈ body', (x != '`') = true) :
    pySplit (body' ++ ['`', '`', '`']) ('`' :: lit "``") = [body', []] := by
  unfold pySplit
  rw [pySplitAux_skip '`' (lit "``") _ _ _ _ hb
    (by simp only [List.length_append, List.length_cons]; omega)]
  rw [show (['`', '`', '`'] : List Char) = ('`' :: lit "``") ++ [] from rfl]
  rw [pySplitAux_head_match '`' (lit "``") _ _ _
    (by simp only [List.length_append, List.length_cons]; omega)]
  rw [pySplitAux_nil]
  simp

theorem hasSub_json_of_prefix (rest : List Char) :
    hasSub (lit "```json") (lit "```json" ++ rest) = true :=
  hasSub_prefix '`' (lit "``json") rest

theorem hasSub_ticks_of_prefix (rest : List Char) :
    hasSub (lit "```") (lit "```" ++ rest) = true :=
  hasSub_prefix '`' (lit "``") rest

theorem noTick_wrap (body : List Char) (hbt : ∀ x ∈ body, (x != '`') = true) :
    ∀ x ∈ '\n' :: body ++ ['\n'], (x != '`') = true := by
  intro x hx
  rcases List.mem_cons.mp hx with rfl | hx
  · rfl
  · rcases List.mem_append.mp hx with hx | hx
    · exact hbt x hx
    · rw [List.mem_singleton.mp hx]; rfl

theorem hasSub_json_none (body : List Char) (hbt : ∀ x ∈ body, (x != '`') = true) :
    hasSub (lit "```json") (('\n' :: body ++ ['\n']) ++ ['`', '`', '`']) = false := by
  rw [show (lit "```json" : List Char) = '`' :: lit "``json" from rfl]
  rw [hasSub_append_skip '`' (lit "``json") _ _ (noTick_wrap body hbt)]
  decide

theorem hasSub_json_bare (body : List Char) (hbt : ∀ x ∈ body, (x != '`') = true) :
    hasSub (lit "```json")
      ('`' :: '`' :: '`' :: (('\n' :: body ++ ['\n']) ++ ['`', '`', '`'])) = false := by
  have p0 : (lit "```json").isPrefixOf
      ('`' :: '`' :: '`' :: (('\n' :: body ++ ['\n']) ++ ['`', '`', '`'])) = false := by
    show (('`' :: '`' :: '`' :: 'j' :: lit "son").isPrefixOf
      ('`' :: '`' :: '`' :: '\n' :: ((body ++ ['\n']) ++ ['`', '`', '`']))) = false
    simp [List.isPrefixOf, show ('j' == '\n') = false from by decide]
  have p1 : (lit "```json").isPrefixOf
      ('`' :: '`' :: (('\n' :: body ++ ['\n']) ++ ['`', '`', '`'])) = false := by
    show (('`' :: '`' :: '`' :: 'j' :: lit "son").isPrefixOf
      ('`' :: '`' :: '\n' :: ((body ++ ['\n']) ++ ['`', '`', '`']))) = false
    simp [List.isPrefixOf, show ('`' == '\n') = false from by decide]
  have p2 : (lit "```json").isPrefixOf
      ('`' :: (('\n' :: body ++ ['\n']) ++ ['`', '`', '`'])) = false := by
    show (('`' :: '`' :: '`' :: 'j' :: lit "son").isPrefixOf
      ('`' :: '\n' :: ((body ++ ['\n']) ++ ['`', '`', '`']))) = false
    simp [List.isPrefixOf, show ('`' == '\n') = false from by decide]
  have e : ∀ (c : Char) (X : List Char), hasSub (lit "```json") (c :: X) =
      ((lit "```json").isPrefixOf (c :: X) || hasSub (lit "```json") X) := fun c X => rfl
  rw [e, e, e, p0, p1, p2, hasSub_json_none body hbt]
  rfl

theorem renderStr_noTick {s : List Char} (h : ∀ c ∈ s, (c != '`') = true) :
    ∀ c ∈ renderStr s, (c != '`') = true := by
  intro c hc
  rw [renderStr] at hc
  rcases List.mem_cons.mp hc with rfl | hc
  · rfl
  · rcases List.mem_append.mp hc with hc | hc
    · exact h c hc
    · rw [List.mem_singleton.mp hc]; rfl

theorem renderProb_noTick (m e : Nat) : ∀ c ∈ renderProb m e, (c != '`') = true := by
  intro c hc
  have hpad : ∀ x ∈ List.replicate (e + 1 - (natChars m).length) '0' ++ natChars m,
      (x != '`') = true := by
    intro x hx
    rcases List.mem_append.mp hx with hx | hx
    · rw [List.eq_of_mem_replicate hx]; rfl
    · unfold natChars at hx
      obtain ⟨d, _, rfl⟩ := List.mem_map.mp hx
      exact (digitChar_notQuoteTick d).2.1
  simp only [renderProb] at hc
  rcases List.mem_append.mp hc with hc | hc
  · exact hpad c (List.take_subset _ _ hc)
  · rcases List.mem_cons.mp hc with rfl | hc
    · rfl
    · exact hpad c (List.drop_subset _ _ hc)

theorem renderKeyFact_noTick {kf : List Char × List Char}
    (h1 : ∀ c ∈ kf.1, (c != '`') = true) (h2 : ∀ c ∈ kf.2, (c != '`') = true) :
    ∀ c ∈ renderKeyFact kf, (c != '`') = true := by
  intro c hc
  rw [renderKeyFact, List.append_assoc, List.append_assoc, List.append_assoc] at hc
  rcases List.mem_append.mp hc with hc | hc
  · exact (by decide : ∀ x ∈ lit "\x7b\"claim\": ", (x != '`') = true) c hc
  rcases List.mem_append.mp hc with hc | hc
  · exact renderStr_noTick h1 c hc
  rcases List.mem_append.mp hc with hc | hc
  · exact (by decide : ∀ x ∈ lit ", \"source\": ", (x != '`') = true) c hc
  rcases List.mem_append.mp hc with hc | hc
  · exact renderStr_noTick h2 c hc
  exact (by decide : ∀ x ∈ lit "\x7d", (x != '`') = true) c hc

theorem renderKeyFacts_noTick (kfs : List (List Char × List Char))
    (h : ∀ kf ∈ kfs, (∀ c ∈ kf.1, (c != '`') = true) ∧ (∀ c ∈ kf.2, (c != '`') = true)) :
    ∀ c ∈ renderKeyFacts kfs, (c != '`') = true := by
  induction kfs with
  | nil => intro c hc; simp [renderKeyFacts] at hc
  | cons kf t ih =>
    intro c hc
    have hkf := h kf (List.mem_cons_self kf t)
    cases t with
    | nil =>
      simp only [renderKeyFacts] at hc
      exact renderKeyFact_noTick hkf.1 hkf.2 c hc
    | cons kf2 t2 =>
      simp only [renderKeyFacts] at hc
      rw [List.append_assoc] at hc
      rcases List.mem_append.mp hc with hc | hc
      · exact renderKeyFact_noTick hkf.1 hkf.2 c hc
      rcases List.mem_append.mp hc with hc | hc
      · exact (by decide : ∀ x ∈ lit ", ", (x != '`') = true) c hc
      exact ih (fun x hx => h x (List.mem_cons_of_mem kf hx)) c hc

theorem renderPayload_noTick (pl : ForecastPayload) (h : jsonCleanPayload pl = true) :
    ∀ c ∈ renderPayload pl, (c != '`') = true := by
  obtain ⟨hev, hpr, hrat, hkf, _, _, _⟩ := jsonCleanPayload_parts h
  intro c hc
  rw [renderPayload, List.append_assoc, List.append_assoc, List.append_assoc,
    List.append_assoc, List.append_assoc, List.append_assoc, List.append_assoc,
    List.append_assoc, List.append_assoc] at hc
  rcases List.mem_append.mp hc with hc | hc
  · exact (by decide : ∀ x ∈ lit "\x7b\"event_id\": ", (x != '`') = true) c hc
  rcases List.mem_append.mp hc with hc | hc
  · exact renderStr_noTick (fun x hx => (cleanChar_props (hev x hx)).2) c hc
  rcases List.mem_append.mp hc with hc | hc
  · exact (by decide : ∀ x ∈ lit ", \"prediction\": ", (x != '`') = true) c hc
  rcases List.mem_append.mp hc with hc | hc
  · exact renderStr_noTick (fun x hx => (cleanChar_props (hpr x hx)).2) c hc
  rcases List.mem_append.mp hc with hc | hc
  · exact (by decide : ∀ x ∈ lit ", \"probability\": ", (x != '`') = true) c hc
  rcases List.mem_append.mp hc with hc | hc
  · exact renderProb_noTick pl.probM pl.probE c hc
  rcases List.mem_append.mp hc with hc | hc
  · exact (by decide : ∀ x ∈ lit ", \"key_facts\": [", (x != '`') = true) c hc
  rcases List.mem_append.mp hc with hc | hc
  · exact renderKeyFacts_noTick pl.key_facts
      (fun kf hkf' => ⟨fun x hx => (cleanChar_props ((hkf kf hkf').1 x hx)).2,
                       fun x hx => (cleanChar_props ((hkf kf hkf').2 x hx)).2⟩) c hc
  rcases List.mem_append.mp hc with hc | hc
  · exact (by decide : ∀ x ∈ lit "], \"rationale\": ", (x != '`') = true) c hc
  rcases List.mem_append.mp hc with hc | hc
  · exact renderStr_noTick (fun x hx => (cleanChar_props (hrat x hx)).2) c hc
  exact (by decide : ∀ x ∈ lit "\x7d", (x != '`') = true) c hc

theorem pySplit_fence_bare (body : List Char) (hbt : ∀ x ∈ body, (x != '`') = true) :
    pySplit (('`' :: lit "``") ++ ('\n' :: body ++ '\n' :: lit "```")) ('`' :: lit "``") =
      [[], '\n' :: body ++ ['\n'], []] := by
  have hR : ('\n' : Char) :: body ++ '\n' :: lit "```" =
      ('\n' :: body ++ ['\n']) ++ ['`', '`', '`'] := by
    simp [lit]
  unfold pySplit
  rw [pySplitAux_head_match '`' (lit "``") _ _ _
    (by simp only [List.length_append, List.length_cons]; omega)]
  rw [hR]
  rw [pySplitAux_skip '`' (lit "``") _ _ _ _ (noTick_wrap body hbt)
    (by simp only [List.length_append, List.length_cons]; omega)]
  rw [show (['`', '`', '`'] : List Char) = ('`' :: lit "``") ++ [] from by
    rw [List.append_nil]; rfl]
  rw [pySplitAux_head_match '`' (lit "``") _ _ _
    (by simp only [List.length_append, List.length_cons]; omega)]
  rw [pySplitAux_nil]
  simp

theorem pySplit_no_tick (b : List Char) (hb : ∀ x ∈ b, (x != '`') = true) :
    pySplit b ('`' :: lit "``") = [b] := by
  unfold pySplit
  conv_lhs => rw [show b = b ++ [] from (List.append_nil b).symm]
  rw [pySplitAux_skip '`' (lit "``") _ _ _ _ hb
    (by simp only [List.length_append, List.length_cons]; omega)]
  rw [pySplitAux_nil]
  simp

theorem clean_json_fence_json (body : List Char)
    (hbt : ∀ x ∈ body, (x != '`') = true)
    (c1 c2 : Char) (mid : List Char) (hb : body = c1 :: (mid ++ [c2]))
    (h1 : c1.isWhitespace = false) (h2 : c2.isWhitespace = false) :
    clean_json (fenceWrapJson (String.mk body)) = String.mk body := by
  have hdata : (fenceWrapJson (String.mk body)).data =
      lit "```json" ++ ('\n' :: body ++ '\n' :: lit "```") := by
    simp [fenceWrapJson, lit]
  have hguard : hasSub (lit "```json")
      (lit "```json" ++ ('\n' :: body ++ '\n' :: lit "```")) = true :=
    hasSub_json_of_prefix _
  have hsplit1 : pySplit (lit "```json" ++ ('\n' :: body ++ '\n' :: lit "```"))
      (lit "```json") = [[], '\n' :: body ++ '\n' :: lit "```"] :=
    pySplit_fence_json body hbt
  have hR : ('\n' : Char) :: body ++ '\n' :: lit "```" =
      ('\n' :: body ++ ['\n']) ++ ['`', '`', '`'] := by
    simp [lit]
  have hsplit2 : pySplit ('\n' :: (body ++ '\n' :: lit "```")) (lit "```") =
      ['\n' :: (body ++ ['\n']), []] := by
    have e : '\n' :: (body ++ '\n' :: lit "```") =
        (('\n' :: body) ++ ['\n']) ++ ['`', '`', '`'] := by
      simp [lit]
    rw [e]
    have h := pySplit_body_ticks (('\n' :: body) ++ ['\n']) (noTick_wrap body hbt)
    rw [show (lit "```" : List Char) = '`' :: lit "``" from rfl, h]
    simp
  have hstrip : pyStrip ('\n' :: (body ++ ['\n'])) = body := by
    rw [hb]
    exact pyStrip_wrap mid c1 c2 h1 h2
  simp only [clean_json, hdata, hguard, if_true, hsplit1]
  simp [hsplit2, hstrip]

theorem clean_json_fence_bare (body : List Char)
    (hbt : ∀ x ∈ body, (x != '`') = true)
    (c1 c2 : Char) (mid : List Char) (hb : body = c1 :: (mid ++ [c2]))
    (h1 : c1.isWhitespace = false) (h2 : c2.isWhitespace = false) :
    clean_json (fenceWrapBare (String.mk body)) = String.mk body := by
  have hdata : (fenceWrapBare (String.mk body)).data =
      lit "```" ++ ('\n' :: body ++ '\n' :: lit "```") := by
    simp [fenceWrapBare, lit]
  have hguard1 : hasSub (lit "```json")
      (lit "```" ++ ('\n' :: body ++ '\n' :: lit "```")) = false := by
    have h := hasSub_json_bare body hbt
    have e : (lit "```" : List Char) ++ ('\n' :: body ++ '\n' :: lit "```") =
        '`' :: '`' :: '`' :: (('\n' :: body ++ ['\n']) ++ ['`', '`', '`']) := by
      simp [lit]
    rw [e]
    exact h
  have hguard2 : hasSub (lit "```")
      (lit "```" ++ ('\n' :: body ++ '\n' :: lit "```")) = true :=
    hasSub_ticks_of_prefix _
  have hsplit1 : pySplit (lit "```" ++ ('\n' :: body ++ '\n' :: lit "```")) (lit "```") =
      [[], '\n' :: body ++ ['\n'], []] :=
    pySplit_fence_bare body hbt
  have hsplit2 : pySplit ('\n' :: (body ++ ['\n'])) (lit "```") =
      ['\n' :: (body ++ ['\n'])] :=
    pySplit_no_tick (('\n' :: body) ++ ['\n']) (noTick_wrap body hbt)
  have hstrip : pyStrip ('\n' :: (body ++ ['\n'])) = body := by
    rw [hb]
    exact pyStrip_wrap mid c1 c2 h1 h2
  simp only [clean_json, hdata, hguard1, Bool.false_eq_true, if_false, hguard2, if_true,
    hsplit1]
  simp [hsplit2, hstrip]

theorem clean_json_plain (body : List Char) (hbt : ∀ x ∈ body, (x != '`') = true) :
    clean_json (String.mk body) = String.mk body := by
  have hguard1 : hasSub (lit "```json") body = false := hasSub_all_ne '`' (lit "``json") body hbt
  have hguard2 : hasSub (lit "```") body = false := hasSub_all_ne '`' (lit "``") body hbt
  simp only [clean_json, hguard1, hguard2, Bool.false_eq_true, if_false]

theorem mapM_toKeyFact (kfl : List (List Char × List Char)) :
    (kfl.map (fun kf => Json.obj [("claim", Json.str (String.mk kf.1)),
        ("source", Json.str (String.mk kf.2))])).mapM toKeyFact =
      some (kfl.map fun kf => (⟨String.mk kf.1, String.mk kf.2⟩ : KeyFact)) := by
  induction kfl with
  | nil => rfl
  | cons kf t ih =>
    rw [List.map_cons, List.map_cons, List.mapM_cons]
    rw [show toKeyFact (Json.obj [("claim", Json.str (String.mk kf.1)),
        ("source", Json.str (String.mk kf.2))]) =
      some (⟨String.mk kf.1, String.mk kf.2⟩ : KeyFact) from rfl]
    rw [ih]
    rfl

theorem model_validate_payloadJson (pl : ForecastPayload) (h : jsonCleanPayload pl = true) :
    PredictionOutput.model_validate (payloadJson pl) =
      some { event_id := String.mk pl.event_id,
             prediction := if pl.prediction = lit "YES" then PredictionOutcome.YES
               else PredictionOutcome.NO,
             probability := (pl.probM : ℚ) / (10 : ℚ) ^ pl.probE,
             key_facts := pl.key_facts.map (fun kf => ⟨String.mk kf.1, String.mk kf.2⟩),
             rationale := String.mk pl.rationale } := by
  obtain ⟨_, _, _, _, hyn, _, hM⟩ := jsonCleanPayload_parts h
  have hq0 : (0 : ℚ) ≤ (pl.probM : ℚ) / (10 : ℚ) ^ pl.probE := by positivity
  have hq1 : (pl.probM : ℚ) / (10 : ℚ) ^ pl.probE ≤ 1 := by
    rw [div_le_one (by positivity)]
    calc ((pl.probM : ℚ)) ≤ ((10 ^ pl.probE : ℕ) : ℚ) := by exact_mod_cast hM
      _ = (10 : ℚ) ^ pl.probE := by push_cast; ring
  have l1 : jLookup (payloadJson pl) "event_id" = some (Json.str (String.mk pl.event_id)) := rfl
  have l2 : jLookup (payloadJson pl) "prediction" =
    some (Json.str (String.mk pl.prediction)) := rfl
  have l3 : jLookup (payloadJson pl) "probability" =
    some (Json.num ((pl.probM : ℚ) / (10 : ℚ) ^ pl.probE)) := rfl
  have l4 : jLookup (payloadJson pl) "key_facts" =
    some (Json.arr (pl.key_facts.map fun kf =>
      Json.obj [("claim", Json.str (String.mk kf.1)),
                ("source", Json.str (String.mk kf.2))])) := rfl
  have l5 : jLookup (payloadJson pl) "rationale" =
    some (Json.str (String.mk pl.rationale)) := rfl
  unfold PredictionOutput.model_validate
  rw [l1, l2, l3, l4, l5]
  have hprob : parseProbability (Json.num ((pl.probM : ℚ) / (10 : ℚ) ^ pl.probE)) =
      some ((pl.probM : ℚ) / (10 : ℚ) ^ pl.probE) := by
    simp [parseProbability, hq0, hq1]
  have hkfs : keyFactsOf (Json.arr (pl.key_facts.map fun kf =>
      Json.obj [("claim", Json.str (String.mk kf.1)),
                ("source", Json.str (String.mk kf.2))])) =
      some (pl.key_facts.map fun kf => (⟨String.mk kf.1, String.mk kf.2⟩ : KeyFact)) := by
    rw [show keyFactsOf (Json.arr (pl.key_facts.map fun kf =>
        Json.obj [("claim", Json.str (String.mk kf.1)),
                  ("source", Json.str (String.mk kf.2))])) =
      (pl.key_facts.map fun kf =>
        Json.obj [("claim", Json.str (String.mk kf.1)),
                  ("source", Json.str (String.mk kf.2))]).mapM toKeyFact from rfl]
    exact mapM_toKeyFact pl.key_facts
  rcases hyn with hy | hy
  · rw [hy]
    simp only [Option.some_bind]
    rw [show jsonStr (Json.str (String.mk pl.event_id)) = some (String.mk pl.event_id) from rfl]
    rw [show parseOutcome (Json.str (String.mk (lit "YES"))) =
      some PredictionOutcome.YES from rfl]
    rw [show jsonStr (Json.str (String.mk pl.rationale)) =
      some (String.mk pl.rationale) from rfl]
    rw [hprob, hkfs]
    simp
  · rw [hy]
    simp only [Option.some_bind]
    rw [show jsonStr (Json.str (String.mk pl.event_id)) = some (String.mk pl.event_id) from rfl]
    rw [show parseOutcome (Json.str (String.mk (lit "NO"))) =
      some PredictionOutcome.NO from rfl]
    rw [show jsonStr (Json.str (String.mk pl.rationale)) =
      some (String.mk pl.rationale) from rfl]
    rw [hprob, hkfs]
    simp [show (lit "NO" : List Char) ≠ lit "YES" from by decide]

theorem renderPayload_shape (pl : ForecastPayload) :
    ∃ mid, renderPayload pl = '\x7b' :: (mid ++ ['\x7d']) := by
  refine ⟨lit "\"event_id\": " ++ (renderStr pl.event_id ++ (lit ", \"prediction\": " ++
    (renderStr pl.prediction ++ (lit ", \"probability\": " ++ (renderProb pl.probM pl.probE ++
    (lit ", \"key_facts\": [" ++ (renderKeyFacts pl.key_facts ++
    (lit "], \"rationale\": " ++ renderStr pl.rationale)))))))), ?_⟩
  rw [renderPayload]
  simp only [List.append_assoc]
  rfl

/-- C9: round-trip — serializing a JSON-clean Forecast payload and parsing it
back through the agents' path (`clean_json`, then `json.loads`, then pydantic
validation) yields a Forecast field-for-field equal to the original, whether
the serialized payload arrives wrapped in a ```json fence, in bare ``` fences,
or unfenced. -/
theorem forecast_round_trip (pl : ForecastPayload) (h : jsonCleanPayload pl = true) :
    parse_forecast (clean_json (fenceWrapJson (json_dumps_forecast pl))) =
      some pl.toOutput ∧
    parse_forecast (clean_json (fenceWrapBare (json_dumps_forecast pl))) =
      some pl.toOutput ∧
    parse_forecast (clean_json (json_dumps_forecast pl)) = some pl.toOutput := by
  have hbt : ∀ c ∈ renderPayload pl, (c != '`') = true := renderPayload_noTick pl h
  obtain ⟨mid, hmid⟩ := renderPayload_shape pl
  have hcj : clean_json (fenceWrapJson (json_dumps_forecast pl)) = json_dumps_forecast pl :=
    clean_json_fence_json (renderPayload pl) hbt '\x7b' '\x7d' mid hmid
      (by decide) (by decide)
  have hcb : clean_json (fenceWrapBare (json_dumps_forecast pl)) = json_dumps_forecast pl :=
    clean_json_fence_bare (renderPayload pl) hbt '\x7b' '\x7d' mid hmid
      (by decide) (by decide)
  have hcp : clean_json (json_dumps_forecast pl) = json_dumps_forecast pl :=
    clean_json_plain (renderPayload pl) hbt
  have hparse : parse_forecast (json_dumps_forecast pl) = some pl.toOutput := by
    rw [show parse_forecast (json_dumps_forecast pl) =
      ((parsePayloadChars (renderPayload pl)).bind fun r =>
        if r.2 = [] then some (payloadJson r.1) else none).bind
        PredictionOutput.model_validate from rfl]
    rw [parsePayloadChars_render pl h, Option.some_bind, if_pos rfl, Option.some_bind,
      model_validate_payloadJson pl h]
    rfl
  exact ⟨by rw [hcj]; exact hparse, by rw [hcb]; exact hparse, by rw [hcp]; exact hparse⟩

/-- Witness for C9: the round trip at a concrete JSON-clean payload
(probability 0.65, one key fact), under all three fence shapes. -/
theorem forecast_round_trip_witness :
    jsonCleanPayload plW = true ∧
    (parse_forecast (clean_json (fenceWrapJson (json_dumps_forecast plW))) =
        some plW.toOutput ∧
      parse_forecast (clean_json (fenceWrapBare (json_dumps_forecast plW))) =
        some plW.toOutput ∧
      parse_forecast (clean_json (json_dumps_forecast plW)) = some plW.toOutput) :=
  ⟨by decide, forecast_round_trip plW (by decide)⟩
